import Mathlib

/-!
Verification of the w3lib URL engine (`w3lib/_url.py` variant with the
`canonicalize` serializer switch, together with the UTS #46 label validator).

Strings are embedded as `List Char` (Python `str` is a sequence of code
points).  Byte strings are embedded as `List Nat` with every element < 256.
Fallible code returns `Except Unit`.
-/

namespace W3

abbrev Str := List Char

/-! ## Infra character classes

Modelled from the spec: the infra sets (ASCII alpha, digit, hex digit,
alphanumeric, tab-or-newline, whitespace, C0 control, C0-control-or-space)
live in `w3lib/_infra.py`, which is referenced by the URL engine but is not
part of the provided sources.  The definitions below follow the spec's
description of those named predicates (WHATWG infra standard). -/

def ASCII_DIGIT : Str := ("0123456789").toList

def ASCII_UPPER_ALPHA : Str := ("ABCDEFGHIJKLMNOPQRSTUVWXYZ").toList

def ASCII_LOWER_ALPHA : Str := ("abcdefghijklmnopqrstuvwxyz").toList

def ASCII_ALPHA : Str := ASCII_UPPER_ALPHA ++ ASCII_LOWER_ALPHA

def ASCII_ALPHANUMERIC : Str := ASCII_DIGIT ++ ASCII_ALPHA

def ASCII_HEX_DIGIT : Str := ASCII_DIGIT ++ ("ABCDEF").toList ++ ("abcdef").toList

def ASCII_TAB_OR_NEWLINE : Str := ['\t', '\n', '\r']

def ASCII_WHITESPACE : Str := ['\t', '\n', Char.ofNat 12, '\r', ' ']

def C0_CONTROL : Str := (List.range 32).map Char.ofNat

def C0_CONTROL_OR_SPACE : Str := C0_CONTROL ++ [' ']

def isAsciiHexDigit (c : Char) : Bool := ASCII_HEX_DIGIT.contains c

/-! ## `_PercentEncodeSet` (`w3lib/_util.py`) -/

structure PercentEncodeSet where
  code_points : Str
  greater_than : Nat
deriving DecidableEq

namespace PercentEncodeSet

/-- `__contains__`: a code point is in the set iff it is an explicit member or
its ordinal exceeds the threshold. -/
def contains (S : PercentEncodeSet) (c : Char) : Bool :=
  S.code_points.contains c || decide (c.toNat > S.greater_than)

/-- `__init__` with `exclude=True`: members are all code points up to the
threshold that are not in the given string. -/
def ofExclude (cs : Str) (gt : Nat) : PercentEncodeSet :=
  ⟨((List.range (gt + 1)).map Char.ofNat).filter (fun c => ¬ cs.contains c), gt⟩

/-- `__add__`: explicit members are concatenated; the threshold is kept. -/
def add (S : PercentEncodeSet) (cs : Str) : PercentEncodeSet :=
  ⟨S.code_points ++ cs, S.greater_than⟩

/-- `__sub__`: each listed code point is removed from the explicit members;
the threshold is kept. -/
def sub (S : PercentEncodeSet) (cs : Str) : PercentEncodeSet :=
  ⟨S.code_points.filter (fun c => ¬ cs.contains c), S.greater_than⟩

/-- `__or__`: set union of the explicit members (the source goes through
Python `set`, so only membership is specified; duplicates are erased here),
threshold is the minimum. -/
def union (a b : PercentEncodeSet) : PercentEncodeSet :=
  ⟨(a.code_points ++ b.code_points).dedup, min a.greater_than b.greater_than⟩

/-- `__and__`: set intersection of the explicit members, threshold is the
maximum. -/
def inter (a b : PercentEncodeSet) : PercentEncodeSet :=
  ⟨(a.code_points.filter (fun c => b.code_points.contains c)).dedup,
   max a.greater_than b.greater_than⟩

end PercentEncodeSet

/-! ## Static WHATWG encode sets (`w3lib/_url.py`) -/

def C0_CONTROL_PERCENT_ENCODE_SET : PercentEncodeSet := ⟨C0_CONTROL, 0x7E⟩

def FRAGMENT_PERCENT_ENCODE_SET : PercentEncodeSet :=
  C0_CONTROL_PERCENT_ENCODE_SET.add ((" \"<>`").toList)

def QUERY_PERCENT_ENCODE_SET : PercentEncodeSet :=
  C0_CONTROL_PERCENT_ENCODE_SET.add ((" \"#<>").toList)

def SPECIAL_QUERY_PERCENT_ENCODE_SET : PercentEncodeSet :=
  QUERY_PERCENT_ENCODE_SET.add (("'").toList)

def PATH_PERCENT_ENCODE_SET : PercentEncodeSet :=
  QUERY_PERCENT_ENCODE_SET.add (("?`\x7b\x7d").toList)

def USERINFO_PERCENT_ENCODE_SET : PercentEncodeSet :=
  PATH_PERCENT_ENCODE_SET.add (("/:;=@[\\]^|").toList)

/-! ## Number/string helpers -/

def hexUpperDigit (n : Nat) : Char :=
  if n < 10 then Char.ofNat (48 + n) else Char.ofNat (55 + n)

def hexLowerDigit (n : Nat) : Char :=
  if n < 10 then Char.ofNat (48 + n) else Char.ofNat (87 + n)

def decDigitChar (n : Nat) : Char := Char.ofNat (48 + n)

/-- Little-endian base-`b` digits of `n`, computed by structural recursion on
a fuel argument so that the definition reduces inside the kernel; with fuel
at least `n` it agrees with `Nat.digits b n` (see `digitsFuel_eq_digits`). -/
def digitsFuel (b : Nat) : Nat → Nat → List Nat
  | 0, _ => []
  | _ + 1, 0 => []
  | f + 1, n + 1 => (n + 1) % b :: digitsFuel b f ((n + 1) / b)

/-- Python `str(n)` for a natural number. -/
def natToDecStr (n : Nat) : Str :=
  if n = 0 then [('0')] else (digitsFuel 10 n n).reverse.map decDigitChar

/-- Python `f"{n:x}"` (lowercase hexadecimal, no leading zeros). -/
def natToHexStr (n : Nat) : Str :=
  if n = 0 then [('0')] else (digitsFuel 16 n n).reverse.map hexLowerDigit

/-- Value of an ASCII digit or hex digit. -/
def digitVal (c : Char) : Nat :=
  if c.toNat ≥ 97 then c.toNat - 87
  else if c.toNat ≥ 65 then c.toNat - 55
  else c.toNat - 48

/-- Python `int(s, base=r)` restricted to non-empty strings of radix-`r`
ASCII digits, which is the only shape reaching it in the embedded code
paths (Python's `int` additionally strips whitespace and accepts signs,
underscores and non-ASCII digits; none of those can be produced by the
guarded call sites embedded below). -/
def strToNatBase (r : Nat) (s : Str) : Nat :=
  s.foldl (fun acc c => acc * r + digitVal c) 0

/-! ## UTF-8 and the modelled codec registry -/

/-- The UTF-8 encoding of one code point. -/
def utf8EncodeChar (c : Char) : List Nat :=
  let n := c.toNat
  if n < 0x80 then [n]
  else if n < 0x800 then
    [0xC0 + n / 64, 0x80 + n % 64]
  else if n < 0x10000 then
    [0xE0 + n / 4096, 0x80 + n / 64 % 64, 0x80 + n % 64]
  else
    [0xF0 + n / 262144, 0x80 + n / 4096 % 64, 0x80 + n / 64 % 64, 0x80 + n % 64]

/-- Bytes of the XML numeric character reference for one code point, as
produced by Python's `xmlcharrefreplace` error handler. -/
def xmlCharRef (n : Nat) : List Nat :=
  [38, 35] ++ (natToDecStr n).map Char.toNat ++ [59]

/-- Modelled from the spec: the codec machinery (`codecs.lookup` /
`_get_encoder`) is external to the provided sources.  UTF-8 is embedded
exactly.  Every other WHATWG output encoding is ASCII-compatible, so ASCII
code points map to their own byte; a non-ASCII code point is modelled by the
`xmlcharrefreplace` fallback the source requests, which is exact whenever the
code point is unmappable in the target encoding (mappable non-ASCII code
points of legacy encodings are outside the modelled fragment). -/
def encodeBytes (encoding : String) (s : Str) : List Nat :=
  if encoding == ("utf-8") then s.flatMap utf8EncodeChar
  else s.flatMap (fun c => if c.toNat < 0x80 then [c.toNat] else xmlCharRef c.toNat)

/-! ## `_percent_encode_after_encoding` -/

/-- `f"%{byte:02X}"` for a byte value. -/
def percentEncodeByte (b : Nat) : Str :=
  ['%', hexUpperDigit (b / 16 % 16), hexUpperDigit (b % 16)]

/-- The byte-walking loop of `_percent_encode_after_encoding`: the index
lookahead `encode_output[i+1]`, `encode_output[i+2]` is realised by peeking
at the first two elements of the remaining list. -/
def pctEncodeBytes (S : PercentEncodeSet) (space_as_plus : Bool) : List Nat → Str
  | [] => []
  | b :: rest =>
    (if space_as_plus && b == 0x20 then [('+')]
     else
       let isomorph := Char.ofNat b
       if ¬ S.contains isomorph then [isomorph]
       else if isomorph == '%' then
         (match rest with
          | b1 :: b2 :: _ =>
            if isAsciiHexDigit (Char.ofNat b1) && isAsciiHexDigit (Char.ofNat b2) then
              [('%')]
            else ("%25").toList
          | _ => ("%25").toList)
       else percentEncodeByte b) ++ pctEncodeBytes S space_as_plus rest

def percent_encode_after_encoding (encoding : String) (input : Str)
    (percent_encode_set : PercentEncodeSet) (space_as_plus : Bool) : Str :=
  pctEncodeBytes percent_encode_set space_as_plus (encodeBytes encoding input)

def utf_8_percent_encode (input : Str) (percent_encode_set : PercentEncodeSet) : Str :=
  percent_encode_after_encoding ("utf-8") input percent_encode_set false

/-- `_idempotent_utf_8_percent_encode`. -/
def idempotent_utf_8_percent_encode (input : Str) (pointer : Nat)
    (encode_set : PercentEncodeSet) : Str :=
  let code_point := input.getD pointer (Char.ofNat 0)
  if code_point == '%' && encode_set.contains '%' then
    if pointer + 2 ≥ input.length
        || ¬ isAsciiHexDigit (input.getD (pointer + 1) (Char.ofNat 0))
        || ¬ isAsciiHexDigit (input.getD (pointer + 2) (Char.ofNat 0)) then
      ("%25").toList
    else [('%')]
  else utf_8_percent_encode [code_point] encode_set

/-! ## IPv4 (`_parse_ipv4_number`, `_ends_in_number`, `_parse_ipv4`,
`_serialize_ipv4`) -/

def isRadixDigit (r : Nat) (c : Char) : Bool :=
  if r = 16 then isAsciiHexDigit c
  else ASCII_DIGIT.contains c && decide (digitVal c < r)

def parse_ipv4_number (input : Str) : Except Unit (Nat × Bool) :=
  if input = [] then .error ()
  else
    let s :=
      if input.length ≥ 2 then
        if input.take 2 = ("0X").toList ∨ input.take 2 = ("0x").toList then
          (input.drop 2, 16, true)
        else if input.getD 0 (Char.ofNat 0) = '0' then (input.drop 1, 8, true)
        else (input, 10, false)
      else (input, 10, false)
    if s.1 = [] then .ok (0, true)
    else if s.1.all (isRadixDigit s.2.1) then .ok (strToNatBase s.2.1 s.1, s.2.2)
    else .error ()

/-- Python `s.split(".")`. -/
def splitDot : Str → List Str
  | [] => [[]]
  | c :: rest =>
    if c = '.' then [] :: splitDot rest
    else
      match splitDot rest with
      | [] => [[c]]
      | p :: ps => (c :: p) :: ps

def ends_in_number (input : Str) : Bool :=
  let parts := splitDot input
  if parts.getLast? = some [] ∧ parts.length = 1 then false
  else
    let parts := if parts.getLast? = some [] then parts.dropLast else parts
    match parts.getLast? with
    | none => false
    | some last =>
      if last ≠ [] ∧ last.all (fun c => ASCII_DIGIT.contains c) then true
      else
        match parse_ipv4_number last with
        | .ok _ => true
        | .error _ => false

def parse_ipv4 (input : Str) : Except Unit Nat := do
  let parts := splitDot input
  let parts := if parts.getLast? = some [] then parts.dropLast else parts
  if parts.length > 4 then .error ()
  else do
    let numbers ← parts.mapM (fun p => (parse_ipv4_number p).map Prod.fst)
    match numbers.getLast? with
    | none => .error ()
    | some last =>
      if numbers.dropLast.any (fun n => n > 255) then .error ()
      else if last ≥ 256 ^ (5 - numbers.length) then .error ()
      else
        .ok (numbers.dropLast.enum.foldl (fun acc p => acc + p.2 * 256 ^ (3 - p.1)) last)

def serialize_ipv4 (address : Nat) : Str :=
  ([1, 2, 3, 4].foldl
    (fun (st : Str × Nat) i =>
      let output := natToDecStr (st.2 % 256) ++ st.1
      let output := if i ≠ 4 then '.' :: output else output
      (output, st.2 / 256))
    ([], address)).1

/-! ## IPv6 (`_parse_ipv6`, `_get_ipv6_first_longest_0_piece_index`,
`_serialize_ipv6`)

The `while` loops of `_parse_ipv6` are embedded as recursions;
`hexScanGo` tracks how many code points the 4-hex-digit scan consumed, so
the source's `pointer` is recovered as `pointer + length`. -/

def hexScanGo (input : Str) (pointer value length : Nat) : Nat × Nat :=
  if h : length < 4 ∧ pointer < input.length ∧
      isAsciiHexDigit (input.getD pointer (Char.ofNat 0)) then
    hexScanGo input (pointer + 1)
      (value * 16 + digitVal (input.getD pointer (Char.ofNat 0))) (length + 1)
  else (value, length)
termination_by 4 - length
decreasing_by omega

/-- The inner digit loop of the embedded-IPv4 part of `_parse_ipv6`;
returns the parsed `ipv4_piece` and the new pointer. -/
def ipv6DigitScan (input : Str) (pointer : Nat) (piece : Option Nat) :
    Except Unit (Nat × Nat) :=
  if h : pointer < input.length ∧
      ASCII_DIGIT.contains (input.getD pointer (Char.ofNat 0)) then
    let number := digitVal (input.getD pointer (Char.ofNat 0))
    match piece with
    | none =>
      if number > 255 then .error () else ipv6DigitScan input (pointer + 1) (some number)
    | some p =>
      if p = 0 then .error ()
      else if p * 10 + number > 255 then .error ()
      else ipv6DigitScan input (pointer + 1) (some (p * 10 + number))
  else
    match piece with
    | none => .error ()
    | some p => .ok (p, pointer)
termination_by input.length - pointer
decreasing_by all_goals omega

/-- The embedded-IPv4 loop of `_parse_ipv6`; returns the updated address and
`piece_index`.  The loop runs at most four times because `numbers_seen` may
not reach a fifth iteration. -/
def ipv6Ipv4Loop (input : Str) (pointer numbers_seen piece_index : Nat)
    (address : List Nat) : Except Unit (List Nat × Nat) :=
  if pointer < input.length then
    if hn : numbers_seen > 0 then
      if input.getD pointer (Char.ofNat 0) = '.' ∧ numbers_seen < 4 then do
        let r ← ipv6DigitScan input (pointer + 1) none
        let address := address.set piece_index (address.getD piece_index 0 * 256 + r.1)
        let numbers_seen' := numbers_seen + 1
        let piece_index := if numbers_seen' = 2 ∨ numbers_seen' = 4 then piece_index + 1 else piece_index
        ipv6Ipv4Loop input r.2 numbers_seen' piece_index address
      else .error ()
    else do
      if ¬ ASCII_DIGIT.contains (input.getD pointer (Char.ofNat 0)) then .error ()
      else do
        let r ← ipv6DigitScan input pointer none
        let address := address.set piece_index (address.getD piece_index 0 * 256 + r.1)
        let piece_index := if numbers_seen + 1 = 2 ∨ numbers_seen + 1 = 4 then piece_index + 1 else piece_index
        ipv6Ipv4Loop input r.2 (numbers_seen + 1) piece_index address
  else
    if numbers_seen ≠ 4 then .error ()
    else .ok (address, piece_index)
termination_by 4 - numbers_seen
decreasing_by all_goals omega

/-- The main piece loop of `_parse_ipv6`; returns the address, the final
`piece_index` and the final `compress`. -/
def parse_ipv6_loop (input : Str) (pointer piece_index : Nat) (compress : Option Nat)
    (address : List Nat) : Except Unit (List Nat × Nat × Option Nat) :=
  if hp : pointer < input.length then
    if piece_index = 8 then .error ()
    else if input.getD pointer (Char.ofNat 0) = ':' then
      if compress.isSome then .error ()
      else parse_ipv6_loop input (pointer + 1) (piece_index + 1) (some (piece_index + 1)) address
    else
      let vl := hexScanGo input pointer 0 0
      if input.getD (pointer + vl.2) (Char.ofNat 0) = '.' ∧ pointer + vl.2 < input.length then
        if vl.2 = 0 then .error ()
        else if piece_index > 6 then .error ()
        else do
          let r ← ipv6Ipv4Loop input pointer 0 piece_index address
          .ok (r.1, r.2, compress)
      else if h1 : pointer + vl.2 < input.length ∧ input.getD (pointer + vl.2) (Char.ofNat 0) = ':' then
        if pointer + vl.2 + 1 ≥ input.length then .error ()
        else
          parse_ipv6_loop input (pointer + vl.2 + 1) (piece_index + 1) compress
            (address.set piece_index vl.1)
      else if h2 : pointer + vl.2 < input.length then .error ()
      else
        -- The pointer has reached the end of the input, so after the
        -- `address[piece_index] = value; piece_index += 1` write the next
        -- loop iteration exits immediately; that iteration is inlined here.
        .ok (address.set piece_index vl.1, piece_index + 1, compress)
  else .ok (address, piece_index, compress)
termination_by input.length - pointer
decreasing_by all_goals omega

/-- The compress-fixup swap loop at the end of `_parse_ipv6`. -/
def ipv6Swaps (piece_index swaps compress : Nat) (address : List Nat) : List Nat :=
  if piece_index ≠ 0 ∧ swaps > 0 then
    let a := address.getD piece_index 0
    let b := address.getD (compress + swaps - 1) 0
    ipv6Swaps (piece_index - 1) (swaps - 1) compress
      ((address.set piece_index b).set (compress + swaps - 1) a)
  else address
termination_by swaps
decreasing_by omega

def parse_ipv6 (input : Str) : Except Unit (List Nat) := do
  let address := List.replicate 8 0
  let start :=
    if input.length > 0 ∧ input.getD 0 (Char.ofNat 0) = ':' then
      if input.length ≤ 1 ∨ input.getD 1 (Char.ofNat 0) ≠ ':' then none
      else some (2, 1, some 1)
    else some (0, 0, (none : Option Nat))
  match start with
  | none => .error ()
  | some (p0, pi0, c0) => do
    let r ← parse_ipv6_loop input p0 pi0 c0 address
    match r.2.2 with
    | some cp => .ok (ipv6Swaps 7 (r.2.1 - cp) cp r.1)
    | none => if r.2.1 ≠ 8 then .error () else .ok r.1

/-! ## Host parsing -/

def FORBIDDEN_HOST_CODE_POINTS : Str :=
  Char.ofNat 0 :: ("\t\n\r #/:<>?@[\\]^|").toList

def FORBIDDEN_DOMAIN_CODE_POINTS : Str :=
  FORBIDDEN_HOST_CODE_POINTS ++ C0_CONTROL ++ ['%', Char.ofNat 0x7F]

/-- Modelled from the spec: `urllib.parse.unquote` (Python standard library,
not part of the provided sources) unescapes percent sequences.  A `%HH` pair
with an ASCII byte value decodes to that code point; a non-ASCII byte value
would take part in UTF-8 decoding with replacement, which is outside the
modelled fragment and is rendered here as U+FFFD. -/
def unquote : Str → Str
  | [] => []
  | '%' :: a :: b :: rest =>
    if isAsciiHexDigit a ∧ isAsciiHexDigit b then
      (let byte := digitVal a * 16 + digitVal b
       if byte < 0x80 then Char.ofNat byte else Char.ofNat 0xFFFD) :: unquote rest
    else '%' :: unquote (a :: b :: rest)
  | c :: rest => c :: unquote rest

/-- Modelled from the spec: `_domain_to_ascii` drives UTS #46 `_to_ascii`
(`use_std3_ascii_rules=False`, `check_hyphens=False`, `check_bidi=True`,
`check_joiners=True`, `transitional_processing=False`,
`verify_dns_length=False`), whose behaviour depends on the external IDNA
mapping table, Unicode normalisation and Punycode.  The modelled fragment is
domains of ASCII letters, digits, `-` and `.` without `xn--` labels: there
the table maps uppercase to lowercase and keeps the rest, NFC is the
identity, no label starts with a Mark, the bidi and joiner checks are
no-ops, and Punycode conversion is the identity; an empty result fails as in
the source.  Everything else is outside the fragment and fails here. -/
def domain_to_ascii (domain : Str) : Except Unit Str :=
  let mapped := domain.map
    (fun c => if ASCII_UPPER_ALPHA.contains c then Char.ofNat (c.toNat + 32) else c)
  if mapped.all
      (fun c => ASCII_LOWER_ALPHA.contains c || ASCII_DIGIT.contains c ||
        c = '-' || c = '.') then
    if (splitDot mapped).any (fun l => l.take 4 = ("xn--").toList) then .error ()
    else if mapped = [] then .error ()
    else .ok mapped
  else .error ()

def parse_opaque_host (input : Str) : Except Unit Str :=
  if input.any (fun c => FORBIDDEN_HOST_CODE_POINTS.contains c) then .error ()
  else .ok (utf_8_percent_encode input C0_CONTROL_PERCENT_ENCODE_SET)

inductive Host where
  | str (s : Str)
  | ipv4 (n : Nat)
  | ipv6 (pieces : List Nat)
deriving DecidableEq

def parse_host (input : Str) (is_special : Bool) : Except Unit Host :=
  if input.head? = some '[' then
    if input.getLast? ≠ some ']' then .error ()
    else (parse_ipv6 (input.drop 1).dropLast).map Host.ipv6
  else if ¬ is_special then (parse_opaque_host input).map Host.str
  else do
    let domain := unquote input
    let ascii_domain ← domain_to_ascii domain
    if ascii_domain.any (fun c => FORBIDDEN_DOMAIN_CODE_POINTS.contains c) then .error ()
    else if ends_in_number ascii_domain then (parse_ipv4 ascii_domain).map Host.ipv4
    else .ok (Host.str ascii_domain)

/-! ## Path segment predicates -/

def is_windows_drive_letter (input : Str) : Bool :=
  input.length = 2 && ASCII_ALPHA.contains (input.getD 0 (Char.ofNat 0)) &&
    (input.getD 1 (Char.ofNat 0) = ':' || input.getD 1 (Char.ofNat 0) = '|')

def starts_with_windows_drive_letter (input : Str) : Bool :=
  input.length ≥ 2 && is_windows_drive_letter (input.take 2) &&
    (input.length = 2 || ("/\\?#").toList.contains (input.getD 2 (Char.ofNat 0)))

def is_double_dot_path_segment (input : Str) : Bool :=
  [("..").toList, (".%2e").toList, (".%2E").toList, ("%2e.").toList, ("%2E.").toList,
   ("%2e%2e").toList, ("%2e%2E").toList, ("%2E%2e").toList, ("%2E%2E").toList].contains input

def is_single_dot_path_segment (input : Str) : Bool :=
  [(".").toList, ("%2e").toList, ("%2E").toList].contains input

/-! ## Encoding label registry (`_LABEL_ENCODINGS`, `_get_encoding`,
`_get_output_encoding`) -/

def LABEL_ENCODINGS : List (String × String) := [
  (("unicode-1-1-utf-8"), ("utf-8")),
  (("unicode11utf8"), ("utf-8")),
  (("unicode20utf8"), ("utf-8")),
  (("utf-8"), ("utf-8")),
  (("utf8"), ("utf-8")),
  (("x-unicode20utf8"), ("utf-8")),
  (("866"), ("ibm866")),
  (("cp866"), ("ibm866")),
  (("csibm866"), ("ibm866")),
  (("ibm866"), ("ibm866")),
  (("csisolatin2"), ("iso-8859-2")),
  (("iso-8859-2"), ("iso-8859-2")),
  (("iso-ir-101"), ("iso-8859-2")),
  (("iso8859-2"), ("iso-8859-2")),
  (("iso88592"), ("iso-8859-2")),
  (("iso_8859-2"), ("iso-8859-2")),
  (("iso_8859-2:1987"), ("iso-8859-2")),
  (("l2"), ("iso-8859-2")),
  (("latin2"), ("iso-8859-2")),
  (("csisolatin3"), ("iso-8859-3")),
  (("iso-8859-3"), ("iso-8859-3")),
  (("iso-ir-109"), ("iso-8859-3")),
  (("iso8859-3"), ("iso-8859-3")),
  (("iso88593"), ("iso-8859-3")),
  (("iso_8859-3"), ("iso-8859-3")),
  (("iso_8859-3:1988"), ("iso-8859-3")),
  (("l3"), ("iso-8859-3")),
  (("latin3"), ("iso-8859-3")),
  (("csisolatin4"), ("iso-8859-4")),
  (("iso-8859-4"), ("iso-8859-4")),
  (("iso-ir-110"), ("iso-8859-4")),
  (("iso8859-4"), ("iso-8859-4")),
  (("iso88594"), ("iso-8859-4")),
  (("iso_8859-4"), ("iso-8859-4")),
  (("iso_8859-4:1988"), ("iso-8859-4")),
  (("l4"), ("iso-8859-4")),
  (("latin4"), ("iso-8859-4")),
  (("csisolatincyrillic"), ("iso-8859-5")),
  (("cyrillic"), ("iso-8859-5")),
  (("iso-8859-5"), ("iso-8859-5")),
  (("iso-ir-144"), ("iso-8859-5")),
  (("iso8859-5"), ("iso-8859-5")),
  (("iso88595"), ("iso-8859-5")),
  (("iso_8859-5"), ("iso-8859-5")),
  (("iso_8859-5:1988"), ("iso-8859-5")),
  (("arabic"), ("iso-8859-6")),
  (("asmo-708"), ("iso-8859-6")),
  (("csiso88596e"), ("iso-8859-6")),
  (("csiso88596i"), ("iso-8859-6")),
  (("csisolatinarabic"), ("iso-8859-6")),
  (("ecma-114"), ("iso-8859-6")),
  (("iso-8859-6"), ("iso-8859-6")),
  (("iso-8859-6-e"), ("iso-8859-6")),
  (("iso-8859-6-i"), ("iso-8859-6")),
  (("iso-ir-127"), ("iso-8859-6")),
  (("iso8859-6"), ("iso-8859-6")),
  (("iso88596"), ("iso-8859-6")),
  (("iso_8859-6"), ("iso-8859-6")),
  (("iso_8859-6:1987"), ("iso-8859-6")),
  (("csisolatingreek"), ("iso-8859-7")),
  (("ecma-118"), ("iso-8859-7")),
  (("elot_928"), ("iso-8859-7")),
  (("greek"), ("iso-8859-7")),
  (("greek8"), ("iso-8859-7")),
  (("iso-8859-7"), ("iso-8859-7")),
  (("iso-ir-126"), ("iso-8859-7")),
  (("iso8859-7"), ("iso-8859-7")),
  (("iso88597"), ("iso-8859-7")),
  (("iso_8859-7"), ("iso-8859-7")),
  (("iso_8859-7:1987"), ("iso-8859-7")),
  (("sun_eu_greek"), ("iso-8859-7")),
  (("csiso88598e"), ("iso-8859-8")),
  (("csisolatinhebrew"), ("iso-8859-8")),
  (("hebrew"), ("iso-8859-8")),
  (("iso-8859-8"), ("iso-8859-8")),
  (("iso-8859-8-e"), ("iso-8859-8")),
  (("iso-ir-138"), ("iso-8859-8")),
  (("iso8859-8"), ("iso-8859-8")),
  (("iso88598"), ("iso-8859-8")),
  (("iso_8859-8"), ("iso-8859-8")),
  (("iso_8859-8:1988"), ("iso-8859-8")),
  (("visual"), ("iso-8859-8")),
  (("csiso88598i"), ("iso-8859-8-i")),
  (("iso-8859-8-i"), ("iso-8859-8-i")),
  (("logical"), ("iso-8859-8-i")),
  (("csisolatin6"), ("iso-8859-10")),
  (("iso-8859-10"), ("iso-8859-10")),
  (("iso-ir-157"), ("iso-8859-10")),
  (("iso8859-10"), ("iso-8859-10")),
  (("iso885910"), ("iso-8859-10")),
  (("l6"), ("iso-8859-10")),
  (("latin6"), ("iso-8859-10")),
  (("iso-8859-13"), ("iso-8859-13")),
  (("iso8859-13"), ("iso-8859-13")),
  (("iso885913"), ("iso-8859-13")),
  (("iso-8859-14"), ("iso-8859-14")),
  (("iso8859-14"), ("iso-8859-14")),
  (("iso885914"), ("iso-8859-14")),
  (("csisolatin9"), ("iso-8859-15")),
  (("iso-8859-15"), ("iso-8859-15")),
  (("iso8859-15"), ("iso-8859-15")),
  (("iso885915"), ("iso-8859-15")),
  (("iso_8859-15"), ("iso-8859-15")),
  (("l9"), ("iso-8859-15")),
  (("iso-8859-16"), ("iso-8859-16")),
  (("cskoi8r"), ("koi8-r")),
  (("koi"), ("koi8-r")),
  (("koi8"), ("koi8-r")),
  (("koi8-r"), ("koi8-r")),
  (("koi8_r"), ("koi8-r")),
  (("koi8-ru"), ("koi8-u")),
  (("koi8-u"), ("koi8-u")),
  (("csmacintosh"), ("macintosh")),
  (("mac"), ("macintosh")),
  (("macintosh"), ("macintosh")),
  (("x-mac-roman"), ("macintosh")),
  (("dos-874"), ("cp874")),
  (("iso-8859-11"), ("cp874")),
  (("iso8859-11"), ("cp874")),
  (("iso885911"), ("cp874")),
  (("tis-620"), ("cp874")),
  (("windows-874"), ("cp874")),
  (("cp1250"), ("windows-1250")),
  (("windows-1250"), ("windows-1250")),
  (("x-cp1250"), ("windows-1250")),
  (("cp1251"), ("windows-1251")),
  (("windows-1251"), ("windows-1251")),
  (("x-cp1251"), ("windows-1251")),
  (("ansi_x3.4-1968"), ("windows-1252")),
  (("ascii"), ("windows-1252")),
  (("cp1252"), ("windows-1252")),
  (("cp819"), ("windows-1252")),
  (("csisolatin1"), ("windows-1252")),
  (("ibm819"), ("windows-1252")),
  (("iso-8859-1"), ("windows-1252")),
  (("iso-ir-100"), ("windows-1252")),
  (("iso8859-1"), ("windows-1252")),
  (("iso88591"), ("windows-1252")),
  (("iso_8859-1"), ("windows-1252")),
  (("iso_8859-1:1987"), ("windows-1252")),
  (("l1"), ("windows-1252")),
  (("latin1"), ("windows-1252")),
  (("us-ascii"), ("windows-1252")),
  (("windows-1252"), ("windows-1252")),
  (("x-cp1252"), ("windows-1252")),
  (("cp1253"), ("windows-1253")),
  (("windows-1253"), ("windows-1253")),
  (("x-cp1253"), ("windows-1253")),
  (("cp1254"), ("windows-1254")),
  (("csisolatin5"), ("windows-1254")),
  (("iso-8859-9"), ("windows-1254")),
  (("iso-ir-148"), ("windows-1254")),
  (("iso8859-9"), ("windows-1254")),
  (("iso88599"), ("windows-1254")),
  (("iso_8859-9"), ("windows-1254")),
  (("iso_8859-9:1989"), ("windows-1254")),
  (("l5"), ("windows-1254")),
  (("latin5"), ("windows-1254")),
  (("windows-1254"), ("windows-1254")),
  (("x-cp1254"), ("windows-1254")),
  (("cp1255"), ("windows-1255")),
  (("windows-1255"), ("windows-1255")),
  (("x-cp1255"), ("windows-1255")),
  (("cp1256"), ("windows-1256")),
  (("windows-1256"), ("windows-1256")),
  (("x-cp1256"), ("windows-1256")),
  (("cp1257"), ("windows-1257")),
  (("windows-1257"), ("windows-1257")),
  (("x-cp1257"), ("windows-1257")),
  (("cp1258"), ("windows-1258")),
  (("windows-1258"), ("windows-1258")),
  (("x-cp1258"), ("windows-1258")),
  (("x-mac-cyrillic"), ("mac-cyrillic")),
  (("x-mac-ukrainian"), ("mac-cyrillic")),
  (("chinese"), ("gbk")),
  (("csgb2312"), ("gbk")),
  (("csiso58gb231280"), ("gbk")),
  (("gb2312"), ("gbk")),
  (("gb_2312"), ("gbk")),
  (("gb_2312-80"), ("gbk")),
  (("gbk"), ("gbk")),
  (("iso-ir-58"), ("gbk")),
  (("x-gbk"), ("gbk")),
  (("gb18030"), ("gb18030")),
  (("big5"), ("big5")),
  (("big5-hkscs"), ("big5")),
  (("cn-big5"), ("big5")),
  (("csbig5"), ("big5")),
  (("x-x-big5"), ("big5")),
  (("cseucpkdfmtjapanese"), ("euc-jp")),
  (("euc-jp"), ("euc-jp")),
  (("x-euc-jp"), ("euc-jp")),
  (("csiso2022jp"), ("iso-2022-jp")),
  (("iso-2022-jp"), ("iso-2022-jp")),
  (("csshiftjis"), ("shift_jis")),
  (("ms932"), ("shift_jis")),
  (("ms_kanji"), ("shift_jis")),
  (("shift-jis"), ("shift_jis")),
  (("shift_jis"), ("shift_jis")),
  (("sjis"), ("shift_jis")),
  (("windows-31j"), ("shift_jis")),
  (("x-sjis"), ("shift_jis")),
  (("cseuckr"), ("euc-kr")),
  (("csksc56011987"), ("euc-kr")),
  (("euc-kr"), ("euc-kr")),
  (("iso-ir-149"), ("euc-kr")),
  (("korean"), ("euc-kr")),
  (("ks_c_5601-1987"), ("euc-kr")),
  (("ks_c_5601-1989"), ("euc-kr")),
  (("ksc5601"), ("euc-kr")),
  (("ksc_5601"), ("euc-kr")),
  (("windows-949"), ("euc-kr")),
  (("csiso2022kr"), ("replacement")),
  (("hz-gb-2312"), ("replacement")),
  (("iso-2022-cn"), ("replacement")),
  (("iso-2022-cn-ext"), ("replacement")),
  (("iso-2022-kr"), ("replacement")),
  (("replacement"), ("replacement")),
  (("unicodefffe"), ("utf-16be")),
  (("utf-16be"), ("utf-16be")),
  (("csunicode"), ("utf-16le")),
  (("iso-10646-ucs-2"), ("utf-16le")),
  (("ucs-2"), ("utf-16le")),
  (("unicode"), ("utf-16le")),
  (("unicodefeff"), ("utf-16le")),
  (("utf-16"), ("utf-16le")),
  (("utf-16le"), ("utf-16le")),
  (("x-user-defined"), ("x-user-defined"))]

/-- `str.strip(_ASCII_WHITESPACE)` on a label. -/
def stripAsciiWhitespace (s : Str) : Str :=
  ((s.dropWhile (fun c => ASCII_WHITESPACE.contains c)).reverse.dropWhile
    (fun c => ASCII_WHITESPACE.contains c)).reverse

/-- ASCII lowercasing (`str.lower()`; encoding labels and scheme buffers are
ASCII in every reachable call). -/
def asciiLower (s : Str) : Str :=
  s.map (fun c => if ASCII_UPPER_ALPHA.contains c then Char.ofNat (c.toNat + 32) else c)

/-- `_get_encoding`: normalise the label and look it up; unknown labels are
an error. -/
def get_encoding (label : String) : Except Unit String :=
  let label := (asciiLower (stripAsciiWhitespace label.toList)).asString
  match (LABEL_ENCODINGS.find? (fun p => p.1 == label)) with
  | some p => .ok p.2
  | none => .error ()

def OUTPUT_ENCODING_UTF8_ENCODINGS : List String :=
  [("replacement"), ("utf-16be"), ("utf-16le")]

/-- `_get_output_encoding`. -/
def get_output_encoding (encoding : String) : Except Unit String := do
  let encoding ← get_encoding encoding
  if OUTPUT_ENCODING_UTF8_ENCODINGS.contains encoding then .ok ("utf-8")
  else .ok encoding

/-! ## The `_URL` record -/

def SPECIAL_SCHEMES : List Str :=
  [("ftp").toList, ("file").toList, ("http").toList,
   ("https").toList, ("ws").toList, ("wss").toList]

/-- `_DEFAULT_PORTS.get(scheme)`: `file` maps to `None` in the source
dictionary, and `dict.get` also yields `None` for schemes that are not
keys, so both are `none` here. -/
def DEFAULT_PORTS (scheme : Str) : Option Nat :=
  if scheme = ("ftp").toList then some 21
  else if scheme = ("http").toList then some 80
  else if scheme = ("https").toList then some 443
  else if scheme = ("ws").toList then some 80
  else if scheme = ("wss").toList then some 443
  else none

/-- The `_URL` class.  `path` is `Union[str, List[str]]`: `Sum.inl` is the
opaque-path string arm, `Sum.inr` the segment-list arm.  `hostname` is
`Union[int, List[int], str]` with class-attribute default `""`; the
serializer tests `url.hostname is not None`, so the embedded type is
`Option Host` and the default is `some (Host.str [])`, mirroring the `""`
default of the class attribute. -/
structure URL where
  scheme : Str
  is_special : Bool
  username : Str
  password : Str
  hostname : Option Host
  port : Option Nat
  path : Sum Str (List Str)
  query : Option Str
  fragment : Option Str
  password_token_seen : Bool
  port_token_seen : Bool
  default_port_seen : Bool
  path_token_seen : Bool
deriving DecidableEq

/-- `_URL()`: class-attribute defaults plus `__init__`. -/
def URL.init : URL :=
  { scheme := [], is_special := false, username := [], password := [],
    hostname := some (Host.str []), port := none, path := Sum.inr [],
    query := none, fragment := none, password_token_seen := false,
    port_token_seen := false, default_port_seen := false,
    path_token_seen := false }

/-- The `scheme` property setter: also derives `is_special`. -/
def URL.setScheme (u : URL) (v : Str) : URL :=
  { u with scheme := v, is_special := SPECIAL_SCHEMES.contains v }

def URL.has_opaque_path (u : URL) : Bool := u.path.isLeft

/-- `_shorten_path`.  On the opaque-path arm, Python's `len`/slicing work on
the string: `path[0]` is a one-character string, never a Windows drive
letter, and `path[:-1]` drops the last code point. -/
def shorten_path (u : URL) : URL :=
  match u.path with
  | Sum.inr path =>
    if u.scheme = ("file").toList ∧ path.length = 1 ∧
        is_windows_drive_letter (path.getD 0 []) then u
    else { u with path := Sum.inr path.dropLast }
  | Sum.inl s => { u with path := Sum.inl s.dropLast }

def SCHEME_CHARS : Str := ASCII_ALPHANUMERIC ++ ("+-.").toList

/-! ## Serializer (`_serialize_host`, `_get_ipv6_first_longest_0_piece_index`,
`_serialize_ipv6`, `_serialize_url_path`, `_serialize_url`) -/

def get_ipv6_first_longest_0_piece_index (address : List Nat) (min_length : Nat) :
    Option Nat :=
  (address.enum.foldl
    (fun (st : Option Nat × Nat × Nat) p =>
      if p.2 ≠ 0 then (st.1, st.2.1, 0)
      else
        let current_length := st.2.2 + 1
        if current_length > st.2.1 ∧ current_length ≥ min_length then
          (some (p.1 + 1 - current_length), current_length, current_length)
        else (st.1, st.2.1, current_length))
    (none, 0, 0)).1

def serialize_ipv6 (address : List Nat) : Str :=
  let compress := get_ipv6_first_longest_0_piece_index address 2
  ((List.range 8).foldl
    (fun (st : Str × Bool) piece_index =>
      if st.2 ∧ address.getD piece_index 0 = 0 then st
      else if compress = some piece_index then
        (st.1 ++ (if piece_index = 0 then ("::").toList else (":").toList), true)
      else
        let output := st.1 ++ natToHexStr (address.getD piece_index 0)
        (if piece_index ≠ 7 then output ++ [(':')] else output, false))
    ([], false)).1

def serialize_host : Host → Str
  | Host.ipv4 n => serialize_ipv4 n
  | Host.ipv6 pieces => '[' :: (serialize_ipv6 pieces ++ [(']')])
  | Host.str s => s

/-- `_serialize_url_path`.  Python's `not canonicalize` is true for both
`None` and `False`, i.e. for everything but `some true`. -/
def serialize_url_path (url : URL) (canonicalize : Option Bool) : Str :=
  match url.path with
  | Sum.inl s => s
  | Sum.inr path =>
    if path.length ≤ 1 ∧ url.path_token_seen ∧ canonicalize ≠ some true then []
    else path.foldl (fun acc segment => acc ++ '/' :: segment) []

/-- `_serialize_url`.  The `_DEFAULT_PORTS[url.scheme]` subscript is only
reached under `default_port_seen`, which the parser only sets for schemes
with a default port, so `getD 0` stands in for the `KeyError` case. -/
def serialize_url (url : URL) (exclude_fragment : Bool) (canonicalize : Option Bool) :
    Str :=
  let output := url.scheme ++ [(':')]
  let output :=
    match url.hostname with
    | some host =>
      let output := output ++ ("//").toList
      let output :=
        if url.username ≠ [] ∨ url.password ≠ [] then
          let output := output ++ url.username
          let output :=
            if url.password ≠ [] then output ++ ':' :: url.password
            else if canonicalize ≠ some true ∧ url.password_token_seen then
              output ++ [(':')]
            else output
          output ++ [('@')]
        else output
      let output := output ++ serialize_host host
      match url.port with
      | some port => output ++ ':' :: natToDecStr port
      | none =>
        if canonicalize ≠ some true then
          if url.default_port_seen then
            output ++ ':' :: natToDecStr ((DEFAULT_PORTS url.scheme).getD 0)
          else if url.port_token_seen then output ++ [(':')]
          else output
        else output
    | none =>
      match url.path with
      | Sum.inr path =>
        if path.length > 1 ∧ path.getD 0 [] = [] then output ++ ("/.").toList
        else output
      | Sum.inl _ => output
  let output := output ++ serialize_url_path url canonicalize
  let output := match url.query with | some q => output ++ '?' :: q | none => output
  if ¬ exclude_fragment then
    match url.fragment with | some f => output ++ '#' :: f | none => output
  else output

/-! ## The `_parse_url` state machine

The twenty states keep their numbers from the source's `declare(uchar, _)`
constants.  One `step` is one iteration of the `while True:` loop,
including the closing `if pointer >= input_length: break` / `pointer += 1`.
In the source, `c` keeps its stale value from the previous iteration once
the end of the input is reached; every use of `c` in the source is either
guarded by `not reached_end` or occurs in a dot-segment branch of PATH
where the stale value cannot be a delimiter, so modelling the
end-of-input `c` as U+0000 is behaviour-preserving. -/

structure PCtx where
  input : Str
  base : Option URL
  userinfo_set : PercentEncodeSet
  path_set : PercentEncodeSet
  query_set : PercentEncodeSet
  special_query_set : PercentEncodeSet
  fragment_set : PercentEncodeSet

structure PState where
  url : URL
  state : Nat
  buffer : Str
  at_sign_seen : Bool
  inside_brackets : Bool
  skip_authority_shortcut : Bool
  pointer : Int
  encoding : String
deriving DecidableEq

/-- Python `input.find("@", pointer)`. -/
def findFrom (l : Str) (ch : Char) (start : Int) : Int :=
  match (l.drop start.toNat).findIdx? (fun c => c = ch) with
  | some i => ((start.toNat + i : Nat) : Int)
  | none => -1

/-- Python `input[i]` including the negative-index convention (used by the
`input[pointer - 1]` lookbehind in the PATH state). -/
def pyCharAt (l : Str) (i : Int) : Char :=
  if i ≥ 0 then l.getD i.toNat (Char.ofNat 0)
  else l.getD (l.length - (-i).toNat) (Char.ofNat 0)

/-- The userinfo-encoding `for i, code_point in enumerate(buffer)` loop of
the AUTHORITY state. -/
def encodeUserinfo (buffer : Str) (pes : PercentEncodeSet) (u : URL) : URL :=
  buffer.enum.foldl
    (fun (u : URL) p =>
      if p.2 = ':' ∧ ¬ u.password_token_seen then { u with password_token_seen := true }
      else
        let enc := idempotent_utf_8_percent_encode buffer p.1 pes
        if u.password_token_seen then { u with password := u.password ++ enc }
        else { u with username := u.username ++ enc })
    u

/-- `url.path.append(segment)`; a `str` path has no `append`
(`AttributeError`), which no reachable control path triggers. -/
def appendPath (u : URL) (segment : Str) : Except Unit URL :=
  match u.path with
  | Sum.inr l => .ok { u with path := Sum.inr (l ++ [segment]) }
  | Sum.inl _ => .error ()

def stepSchemeStart (s : PState) (reached_end : Bool) (c : Char) : Except Unit PState :=
  if ¬ reached_end ∧ ASCII_ALPHA.contains c then
    .ok { s with buffer := s.buffer ++ [c], state := 1 }
  else .ok { s with state := 2, pointer := s.pointer - 1 }

def stepScheme (ctx : PCtx) (s : PState) (reached_end : Bool) (c : Char) :
    Except Unit PState :=
  if ¬ reached_end ∧ SCHEME_CHARS.contains c then .ok { s with buffer := s.buffer ++ [c] }
  else if ¬ reached_end ∧ c = ':' then
    let url := s.url.setScheme (asciiLower s.buffer)
    let s := { s with url := url, buffer := [] }
    if url.scheme = ("file").toList then .ok { s with state := 12 }
    else if url.is_special then
      if (ctx.base.any fun base => base.scheme == url.scheme) then
        .ok { s with state := 3 }
      else .ok { s with state := 7 }
    else if s.pointer + 1 < (ctx.input.length : Int) ∧
        ctx.input.getD (s.pointer + 1).toNat (Char.ofNat 0) = '/' then
      .ok { s with state := 4, pointer := s.pointer + 1 }
    else .ok { s with url := { url with path := Sum.inl [] }, state := 17 }
  else .ok { s with buffer := [], state := 2, pointer := -1 }

def stepNoScheme (ctx : PCtx) (s : PState) (reached_end : Bool) (c : Char) :
    Except Unit PState :=
  match ctx.base with
  | none => .error ()
  | some base =>
    if base.has_opaque_path then
      if ¬ reached_end ∧ c ≠ '#' then .error ()
      else
        let url := s.url.setScheme base.scheme
        let url := { url with path := base.path, query := base.query, fragment := some [] }
        .ok { s with url := url, state := 19 }
    else if base.scheme ≠ ("file").toList then
      .ok { s with state := 5, pointer := s.pointer - 1 }
    else .ok { s with state := 12, pointer := s.pointer - 1 }

def stepSpecialRelativeOrAuthority (ctx : PCtx) (s : PState) (reached_end : Bool)
    (c : Char) : Except Unit PState :=
  if ¬ reached_end ∧ c = '/' ∧ s.pointer + 1 < (ctx.input.length : Int) ∧
      ctx.input.getD (s.pointer + 1).toNat (Char.ofNat 0) = '/' then
    .ok { s with state := 8, pointer := s.pointer + 1 }
  else .ok { s with state := 5, pointer := s.pointer - 1 }

def stepPathOrAuthority (s : PState) (reached_end : Bool) (c : Char) :
    Except Unit PState :=
  if ¬ reached_end ∧ c = '/' then .ok { s with state := 9 }
  else .ok { s with state := 16, pointer := s.pointer - 1 }

def stepRelative (ctx : PCtx) (s : PState) (reached_end : Bool) (c : Char) :
    Except Unit PState :=
  match ctx.base with
  | none => .error ()
  | some base =>
    let url := s.url.setScheme base.scheme
    if ¬ reached_end ∧ (c = '/' ∨ (url.is_special ∧ c = '\\')) then
      .ok { s with url := url, state := 6 }
    else
      let url := { url with
        username := base.username, password := base.password,
        hostname := base.hostname, port := base.port, path := base.path,
        query := base.query }
      if ¬ reached_end ∧ c = '?' then
        .ok { s with url := { url with query := some [] }, state := 18 }
      else if ¬ reached_end ∧ c = '#' then
        .ok { s with url := { url with fragment := some [] }, state := 19 }
      else if ¬ reached_end then
        .ok { s with
          url := shorten_path { url with query := none }, state := 16,
          pointer := s.pointer - 1 }
      else .ok { s with url := url }

def stepRelativeSlash (ctx : PCtx) (s : PState) (reached_end : Bool) (c : Char) :
    Except Unit PState :=
  if s.url.is_special ∧ ¬ reached_end ∧ (c = '/' ∨ c = '\\') then
    .ok { s with state := 8 }
  else if ¬ reached_end ∧ c = '/' then .ok { s with state := 9 }
  else
    match ctx.base with
    | none => .error ()
    | some base =>
      let url := { s.url with
        username := base.username, password := base.password,
        hostname := base.hostname, port := base.port }
      .ok { s with url := url, state := 16, pointer := s.pointer - 1 }

def stepSpecialAuthoritySlashes (ctx : PCtx) (s : PState) (reached_end : Bool)
    (c : Char) : Except Unit PState :=
  if ¬ reached_end ∧ c = '/' ∧ s.pointer + 1 < (ctx.input.length : Int) ∧
      ctx.input.getD (s.pointer + 1).toNat (Char.ofNat 0) = '/' then
    .ok { s with state := 8, pointer := s.pointer + 1 }
  else .ok { s with state := 8, pointer := s.pointer - 1 }

def stepSpecialAuthorityIgnoreSlashes (s : PState) (reached_end : Bool) (c : Char) :
    Except Unit PState :=
  if reached_end ∨ (c ≠ '/' ∧ c ≠ '\\') then
    .ok { s with state := 9, pointer := s.pointer - 1 }
  else .ok s

def stepAuthority (ctx : PCtx) (s : PState) (reached_end : Bool) (c : Char) :
    Except Unit PState :=
  if ¬ s.skip_authority_shortcut then
    if findFrom ctx.input '@' s.pointer = -1 then
      .ok { s with state := 10, pointer := s.pointer - 1 }
    else .ok { s with skip_authority_shortcut := true, pointer := s.pointer - 1 }
  else if ¬ reached_end ∧ c = '@' then
    let buffer := if s.at_sign_seen then ("%40").toList ++ s.buffer else s.buffer
    .ok { s with
      url := encodeUserinfo buffer ctx.userinfo_set s.url,
      at_sign_seen := true, buffer := [] }
  else if reached_end ∨ c = '/' ∨ c = '?' ∨ c = '#' ∨ (s.url.is_special ∧ c = '\\') then
    if s.at_sign_seen ∧ s.buffer = [] then .error ()
    else
      .ok { s with
        pointer := s.pointer - ((s.buffer.length : Int) + 1), buffer := [],
        state := 10 }
  else .ok { s with buffer := s.buffer ++ [c] }

def stepHost (s : PState) (reached_end : Bool) (c : Char) : Except Unit PState :=
  if ¬ reached_end ∧ c = ':' ∧ ¬ s.inside_brackets then
    if s.buffer = [] then .error ()
    else do
      let host ← parse_host s.buffer s.url.is_special
      .ok { s with
        url := { s.url with hostname := some host, port_token_seen := true },
        buffer := [], state := 11 }
  else if reached_end ∨ c = '/' ∨ c = '?' ∨ c = '#' ∨ (s.url.is_special ∧ c = '\\') then
    if s.url.is_special ∧ s.buffer = [] then .error ()
    else do
      let host ← parse_host s.buffer s.url.is_special
      .ok { s with
        pointer := s.pointer - 1,
        url := { s.url with hostname := some host }, buffer := [], state := 15 }
  else
    let s := if c = '[' then { s with inside_brackets := true }
      else if c = ']' then { s with inside_brackets := false } else s
    .ok { s with buffer := s.buffer ++ [c] }

def stepPort (s : PState) (reached_end : Bool) (c : Char) : Except Unit PState :=
  if ¬ reached_end ∧ ASCII_DIGIT.contains c then .ok { s with buffer := s.buffer ++ [c] }
  else if reached_end ∨ c = '/' ∨ c = '?' ∨ c = '#' ∨ (s.url.is_special ∧ c = '\\') then
    if s.buffer ≠ [] then
      let port := strToNatBase 10 s.buffer
      if port > 2 ^ 16 - 1 then .error ()
      else
        let url :=
          if DEFAULT_PORTS s.url.scheme = some port then
            { s.url with port := none, default_port_seen := true }
          else { s.url with port := some port, default_port_seen := false }
        .ok { s with url := url, buffer := [], state := 15, pointer := s.pointer - 1 }
    else .ok { s with state := 15, pointer := s.pointer - 1 }
  else .error ()

def stepFile (ctx : PCtx) (s : PState) (reached_end : Bool) (c : Char) :
    Except Unit PState :=
  let url := (s.url.setScheme (("file").toList))
  let url := { url with hostname := some (Host.str []) }
  if ¬ reached_end ∧ (c = '/' ∨ c = '\\') then .ok { s with url := url, state := 13 }
  else
    match ctx.base with
    | some base =>
      if base.scheme = ("file").toList then
        let url := { url with
          hostname := base.hostname, path := base.path, query := base.query }
        if ¬ reached_end ∧ c = '?' then
          .ok { s with url := { url with query := some [] }, state := 18 }
        else if ¬ reached_end ∧ c = '#' then
          .ok { s with url := { url with fragment := some [] }, state := 19 }
        else if ¬ reached_end then
          let url := { url with query := none }
          let url :=
            if ¬ starts_with_windows_drive_letter (ctx.input.drop s.pointer.toNat) then
              shorten_path url
            else { url with path := Sum.inr [] }
          .ok { s with url := url, state := 16, pointer := s.pointer - 1 }
        else .ok { s with url := url }
      else .ok { s with url := url, state := 16, pointer := s.pointer - 1 }
    | none => .ok { s with url := url, state := 16, pointer := s.pointer - 1 }

def stepFileSlash (ctx : PCtx) (s : PState) (reached_end : Bool) (c : Char) :
    Except Unit PState :=
  if ¬ reached_end ∧ (c = '/' ∨ c = '\\') then .ok { s with state := 14 }
  else
    match ctx.base with
    | some base =>
      if base.scheme = ("file").toList then
        let url := { s.url with hostname := base.hostname }
        if ¬ starts_with_windows_drive_letter (ctx.input.drop s.pointer.toNat) then
          -- `base.path[0]` raises IndexError on an empty path
          match base.path with
          | Sum.inr (p0 :: _) =>
            if is_windows_drive_letter p0 then do
              let url ← appendPath url p0
              .ok { s with url := url, state := 16, pointer := s.pointer - 1 }
            else .ok { s with url := url, state := 16, pointer := s.pointer - 1 }
          | Sum.inr [] => .error ()
          | Sum.inl (c0 :: _) =>
            -- a str path: `base.path[0]` is one code point, never a drive letter
            if is_windows_drive_letter [c0] then .error ()
            else .ok { s with url := url, state := 16, pointer := s.pointer - 1 }
          | Sum.inl [] => .error ()
        else .ok { s with url := url, state := 16, pointer := s.pointer - 1 }
      else .ok { s with state := 16, pointer := s.pointer - 1 }
    | none => .ok { s with state := 16, pointer := s.pointer - 1 }

def stepFileHost (s : PState) (reached_end : Bool) (c : Char) : Except Unit PState :=
  if reached_end ∨ c = '/' ∨ c = '\\' ∨ c = '?' ∨ c = '#' then
    if is_windows_drive_letter s.buffer then
      .ok { s with pointer := s.pointer - 1, state := 16 }
    else if s.buffer = [] then
      .ok { s with
        pointer := s.pointer - 1,
        url := { s.url with hostname := some (Host.str []) }, state := 15 }
    else do
      let host ← parse_host s.buffer s.url.is_special
      let host := if host = Host.str (("localhost").toList) then Host.str [] else host
      .ok { s with
        pointer := s.pointer - 1,
        url := { s.url with hostname := some host }, buffer := [], state := 15 }
  else .ok { s with buffer := s.buffer ++ [c] }

def stepPathStart (s : PState) (reached_end : Bool) (c : Char) : Except Unit PState :=
  if s.url.is_special then
    if ¬ reached_end ∧ c ≠ '/' ∧ c ≠ '\\' then
      .ok { s with state := 16, pointer := s.pointer - 1 }
    else .ok { s with state := 16 }
  else if ¬ reached_end then
    if c = '?' then .ok { s with url := { s.url with query := some [] }, state := 18 }
    else if c = '#' then .ok { s with url := { s.url with fragment := some [] }, state := 19 }
    else if c ≠ '/' then .ok { s with state := 16, pointer := s.pointer - 1 }
    else .ok { s with state := 16 }
  else .ok s

/-- Python's `not url.path` (an empty list or an empty opaque string). -/
def pathFalsy (u : URL) : Bool :=
  match u.path with
  | Sum.inr [] => true
  | Sum.inl [] => true
  | _ => false

def stepPath (ctx : PCtx) (s : PState) (reached_end : Bool) (c : Char) :
    Except Unit PState :=
  if reached_end ∨ c = '/' ∨ (s.url.is_special ∧ c = '\\') ∨ c = '?' ∨ c = '#' then do
    let url ←
      if is_double_dot_path_segment s.buffer then
        let url := shorten_path s.url
        if c ≠ '/' ∧ ¬ (url.is_special ∧ c = '\\') then appendPath url []
        else .ok url
      else if is_single_dot_path_segment s.buffer then
        if c ≠ '/' ∧ ¬ (s.url.is_special ∧ c = '\\') then appendPath s.url []
        else .ok s.url
      else
        let buffer :=
          if s.url.scheme = ("file").toList ∧ pathFalsy s.url ∧
              is_windows_drive_letter s.buffer then
            s.buffer.take 1 ++ ':' :: s.buffer.drop 2
          else s.buffer
        let url :=
          if pathFalsy s.url ∧ buffer = [] ∧ ¬ reached_end ∧ (c = '?' ∨ c = '#') ∧
              ¬ (pyCharAt ctx.input (s.pointer - 1) = '/' ∨
                 pyCharAt ctx.input (s.pointer - 1) = '\\') then
            { s.url with path_token_seen := true }
          else s.url
        appendPath url buffer
    let s := { s with url := url, buffer := [] }
    if ¬ reached_end ∧ c = '?' then
      .ok { s with url := { url with query := some [] }, state := 18 }
    else if ¬ reached_end ∧ c = '#' then
      .ok { s with url := { url with fragment := some [] }, state := 19 }
    else .ok s
  else
    .ok { s with
      buffer := s.buffer ++
        idempotent_utf_8_percent_encode ctx.input s.pointer.toNat ctx.path_set }

def stepOpaquePath (s : PState) (reached_end : Bool) (c : Char) : Except Unit PState :=
  if ¬ reached_end then
    if c = '?' then .ok { s with url := { s.url with query := some [] }, state := 18 }
    else if c = '#' then
      .ok { s with url := { s.url with fragment := some [] }, state := 19 }
    else
      let encoded := utf_8_percent_encode [c] C0_CONTROL_PERCENT_ENCODE_SET
      match s.url.path with
      | Sum.inl str => .ok { s with url := { s.url with path := Sum.inl (str ++ encoded) } }
      | Sum.inr l =>
        -- `list += str` extends the list with the code points of the string
        .ok { s with
        url := { s.url with path := Sum.inr (l ++ encoded.map (fun ch => [ch])) } }
  else .ok s

def stepQuery (ctx : PCtx) (s : PState) (reached_end : Bool) (c : Char) :
    Except Unit PState :=
  let encoding :=
    if s.encoding ≠ ("utf-8") ∧ (¬ s.url.is_special ∨ s.url.scheme = ("ws").toList ∨
        s.url.scheme = ("wss").toList) then ("utf-8")
    else s.encoding
  let s := { s with encoding := encoding }
  if reached_end ∨ c = '#' then
    let pes := if s.url.is_special then ctx.special_query_set else ctx.query_set
    match s.url.query with
    | none => .error ()
    | some q =>
      let url := { s.url with
        query := some (q ++ percent_encode_after_encoding encoding s.buffer pes false) }
      let s := { s with url := url, buffer := [] }
      if ¬ reached_end ∧ c = '#' then
        .ok { s with url := { url with fragment := some [] }, state := 19 }
      else .ok s
  else .ok { s with buffer := s.buffer ++ [c] }

def stepFragment (ctx : PCtx) (s : PState) (reached_end : Bool) (c : Char) :
    Except Unit PState :=
  if ¬ reached_end then
    match s.url.fragment with
    | none => .error ()
    | some f =>
      let f := f ++ idempotent_utf_8_percent_encode ctx.input s.pointer.toNat ctx.fragment_set
      .ok { s with url := { s.url with fragment := some f } }
  else .ok s

/-- The `if state == _: ... elif ...` dispatch of one loop iteration.  A
state value outside 0–19 matches no branch and is a no-op, exactly as in
the source. -/
def stepBody (ctx : PCtx) (s : PState) (reached_end : Bool) (c : Char) :
    Except Unit PState :=
  if s.state = 0 then stepSchemeStart s reached_end c
  else if s.state = 1 then stepScheme ctx s reached_end c
  else if s.state = 2 then stepNoScheme ctx s reached_end c
  else if s.state = 3 then stepSpecialRelativeOrAuthority ctx s reached_end c
  else if s.state = 4 then stepPathOrAuthority s reached_end c
  else if s.state = 5 then stepRelative ctx s reached_end c
  else if s.state = 6 then stepRelativeSlash ctx s reached_end c
  else if s.state = 7 then stepSpecialAuthoritySlashes ctx s reached_end c
  else if s.state = 8 then stepSpecialAuthorityIgnoreSlashes s reached_end c
  else if s.state = 9 then stepAuthority ctx s reached_end c
  else if s.state = 10 then stepHost s reached_end c
  else if s.state = 11 then stepPort s reached_end c
  else if s.state = 12 then stepFile ctx s reached_end c
  else if s.state = 13 then stepFileSlash ctx s reached_end c
  else if s.state = 14 then stepFileHost s reached_end c
  else if s.state = 15 then stepPathStart s reached_end c
  else if s.state = 16 then stepPath ctx s reached_end c
  else if s.state = 17 then stepOpaquePath s reached_end c
  else if s.state = 18 then stepQuery ctx s reached_end c
  else if s.state = 19 then stepFragment ctx s reached_end c
  else .ok s

inductive StepRes where
  | next (s : PState)
  | done (u : URL)
  | fail

/-- One iteration of the `while True:` loop: compute `reached_end` and `c`,
run the active state's block, then `if pointer >= input_length: break`
else `pointer += 1`. -/
def step (ctx : PCtx) (s : PState) : StepRes :=
  let L : Int := (ctx.input.length : Int)
  let reached_end : Bool := decide (s.pointer ≥ L)
  let c :=
    if s.pointer ≥ 0 ∧ s.pointer < L then ctx.input.getD s.pointer.toNat (Char.ofNat 0)
    else Char.ofNat 0
  match stepBody ctx s reached_end c with
  | .error _ => .fail
  | .ok s' =>
    if s'.pointer ≥ L then .done s'.url else .next { s' with pointer := s'.pointer + 1 }

def runSteps (ctx : PCtx) : Nat → PState → Option (Except Unit URL)
  | 0, _ => none
  | fuel + 1, s =>
    match step ctx s with
    | .fail => some (.error ())
    | .done u => some (.ok u)
    | .next s' => runSteps ctx fuel s'

def preprocess_url (url : Str) : Str :=
  (((url.dropWhile (fun c => C0_CONTROL_OR_SPACE.contains c)).reverse.dropWhile
      (fun c => C0_CONTROL_OR_SPACE.contains c)).reverse).filter
    (fun c => ¬ ASCII_TAB_OR_NEWLINE.contains c)

/-- Fuel that the termination theorem proves sufficient for every input. -/
def parseFuel (L : Nat) : Nat := 20 * (L + 4)

/-- `_parse_url` with the base URL already parsed. -/
def parse_url_with (input : Str) (base : Option URL) (encoding : String)
    (userinfo_set path_set query_set special_query_set fragment_set : PercentEncodeSet) :
    Except Unit URL := do
  let enc ← get_output_encoding encoding
  let input := preprocess_url input
  let ctx : PCtx := ⟨input, base, userinfo_set, path_set, query_set,
    special_query_set, fragment_set⟩
  let s0 : PState := ⟨URL.init, 0, [], false, false, false, 0, enc⟩
  match runSteps ctx (parseFuel input.length) s0 with
  | some r => r
  | none => .error ()

/-- `_parse_url`: an optional base URL string is parsed first, with the
default encode sets, exactly as the source's recursive call does. -/
def parse_url_full (input : Str) (base_url : Option Str) (encoding : String)
    (userinfo_set path_set query_set special_query_set fragment_set : PercentEncodeSet) :
    Except Unit URL := do
  let base ← match base_url with
    | some b =>
      (parse_url_with b none encoding USERINFO_PERCENT_ENCODE_SET
        PATH_PERCENT_ENCODE_SET QUERY_PERCENT_ENCODE_SET
        SPECIAL_QUERY_PERCENT_ENCODE_SET FRAGMENT_PERCENT_ENCODE_SET).map some
    | none => pure none
  parse_url_with input base encoding userinfo_set path_set query_set
    special_query_set fragment_set

/-- `_parse_url` with its default encode-set arguments. -/
def parse_url (input : Str) (base_url : Option Str) (encoding : String) :
    Except Unit URL :=
  parse_url_full input base_url encoding USERINFO_PERCENT_ENCODE_SET
    PATH_PERCENT_ENCODE_SET QUERY_PERCENT_ENCODE_SET
    SPECIAL_QUERY_PERCENT_ENCODE_SET FRAGMENT_PERCENT_ENCODE_SET

/-! ## UTS #46 label validation (`_validate_label` in `w3lib/_utr46.py`) -/

/-- Modelled from the spec: `unicodedata.is_normalized("NFC", ·)` is
external.  Every ASCII string is NFC-normalised; non-ASCII strings are
outside the modelled fragment and are treated as failing the check. -/
def isNFC (l : Str) : Bool := l.all (fun c => c.toNat < 128)

/-- Modelled from the spec: the `unicodedata.category(c)[0] == "M"` test;
no ASCII character is in the Mark general category, and non-ASCII labels
are already outside the modelled fragment (see `isNFC`). -/
def isMarkCategory (c : Char) : Bool :=
  if c.toNat < 128 then false else false

inductive IdnaStatus where
  | valid
  | mapped
  | unknown
deriving DecidableEq

/-- Modelled from the spec: the IDNA mapping table (loaded from the
external `idna.txt` data file) restricted to the fragment used here: ASCII
lowercase letters, digits, hyphen and full stop are `valid`; ASCII
uppercase letters are `mapped` (to their lowercase forms); every other code
point (including the ASCII code points whose status is a
`disallowed_STD3_*` variant, and all non-ASCII) is outside the fragment and
is reported as `unknown`, which the validator rejects exactly as it rejects
a missing table entry. -/
def idnaStatus (c : Char) : IdnaStatus :=
  if ASCII_LOWER_ALPHA.contains c || ASCII_DIGIT.contains c || c = '-' || c = '.' then
    .valid
  else if ASCII_UPPER_ALPHA.contains c then .mapped
  else .unknown

/-- The per-code-point admissibility test of `_validate_label`: the status
must be `valid`, or `disallowed_STD3_valid` without STD3 rules, or
`deviation` without transitional processing (the latter two do not occur in
the modelled table fragment). -/
def idnaCharAllowed (c : Char) (transitional_processing use_std3_ascii_rules : Bool) :
    Bool :=
  match idnaStatus c with
  | .valid => true
  | .mapped => false
  | .unknown => false

/-- `_check_contextj_rules` (`w3lib/_rfc5892.py`): returns immediately for
ASCII labels.  The non-ASCII branch drives the external `idna` package
tables; modelled from the spec, it is outside the modelled fragment and
fails here. -/
def check_contextj_rules (label : Str) : Except Unit Unit :=
  if label.all (fun c => c.toNat < 128) then .ok () else .error ()

/-- Modelled from the spec: `idna.check_bidi` is external; labels outside
the ASCII fragment fail here. -/
def check_bidi_rule (label : Str) : Except Unit Unit :=
  if label.all (fun c => c.toNat < 128) then .ok () else .error ()

/-- `_validate_label`.  Note the hyphen-3-4 test compares the
one-code-point slice `label[3:4]` against the two-code-point string
`"--"`. -/
def validate_label (label : Str) (check_hyphens check_joiners check_bidi
    transitional_processing use_std3_ascii_rules : Bool) : Except Unit Unit := do
  if ¬ isNFC label then .error ()
  if check_hyphens then
    if label.length ≥ 4 ∧ (label.drop 3).take 1 = ("--").toList then .error ()
    if label.head? = some '-' then .error ()
    if label.getLast? = some '-' then .error ()
  if label.contains '.' then .error ()
  if label.length ≥ 1 ∧ isMarkCategory (label.getD 0 (Char.ofNat 0)) then .error ()
  if label.any (fun c =>
      ¬ idnaCharAllowed c transitional_processing use_std3_ascii_rules) then .error ()
  if check_joiners then check_contextj_rules label
  if check_bidi then check_bidi_rule label

/-! ## Reference definitions for the IPv6 serializer claim

These two definitions follow the spec's words (first longest run of at
least two zero pieces; `::` substituted for it) and exist to be compared
with the source-derived `serialize_ipv6`. -/

/-- Length of the run of zero pieces starting at index `i`. -/
def zeroRunLength (address : List Nat) (i : Nat) : Nat :=
  ((address.drop i).takeWhile (fun p => p == 0)).length

/-- The first index starting a longest run (of length at least 2) of
consecutive zero pieces, if any. -/
def firstLongestZeroRunStart (address : List Nat) : Option Nat :=
  let m := ((List.range address.length).map (zeroRunLength address)).foldr max 0
  if m ≥ 2 then
    (List.range address.length).find? (fun i => zeroRunLength address i = m)
  else none

/-- Reference IPv6 serializer, written from the spec's words: lowercase hex
pieces joined by `:`, with the first longest zero run of length at least two
replaced by `::`. -/
def specSerializeIpv6 (address : List Nat) : Str :=
  match firstLongestZeroRunStart address with
  | none => List.intercalate [(':')] (address.map natToHexStr)
  | some i =>
    List.intercalate [(':')] ((address.take i).map natToHexStr) ++ ("::").toList ++
      List.intercalate [(':')]
        ((address.drop (i + zeroRunLength address i)).map natToHexStr)

/-- The claim's words, literally: the *leftmost* run of two or more
consecutive zero pieces (the first index whose zero run has length at least
two, regardless of later longer runs). -/
def leftmostZeroRunStart (address : List Nat) : Option Nat :=
  (List.range address.length).find? (fun i => decide (2 ≤ zeroRunLength address i))

/-- IPv6 serializer following the claim's words: `::` substituted for the
leftmost run of at least two zero pieces. -/
def leftmostSerializeIpv6 (address : List Nat) : Str :=
  match leftmostZeroRunStart address with
  | none => List.intercalate [(':')] (address.map natToHexStr)
  | some i =>
    List.intercalate [(':')] ((address.take i).map natToHexStr) ++ ("::").toList ++
      List.intercalate [(':')]
        ((address.drop (i + zeroRunLength address i)).map natToHexStr)

/-! ## Termination measure for the parser loop -/

/-- The loop measure: the state number strictly increases on every
cross-state transition (the states are ranked by their source numbering),
the authority fast-path flag flips at most once, and within a state the
pointer advances. -/
def pMeasure (L : Nat) (s : PState) : Nat :=
  (19 - s.state) * (L + 4) + (if s.skip_authority_shortcut then 0 else 1) +
    ((L : Int) + 1 - s.pointer).toNat

/-- The loop invariant at the top of an iteration: the pointer is inside
`[0, L]`, the buffer is empty in the states that can enter AUTHORITY, and
in AUTHORITY the buffer is no longer than the pointer (its code points were
read from the input positions behind the pointer). -/
def PInv (L : Nat) (s : PState) : Prop :=
  0 ≤ s.pointer ∧ s.pointer ≤ (L : Int) ∧
    (s.state ∈ [0, 2, 3, 4, 5, 6, 7, 8] → s.buffer = []) ∧
    (s.state = 9 → (s.buffer.length : Int) ≤ s.pointer)

/-- What a single state block guarantees about its `.ok` result, before the
bottom-of-loop `pointer += 1`: the pointer rewinds at most one position
below zero, the buffer invariants of `PInv` are re-established (with the
pending `+ 1` applied to the pointer), and the transition either stays in
the same state without moving the pointer backwards, moves to a strictly
larger state number, or flips the AUTHORITY fast-path flag. -/
def BodyOk (s s' : PState) : Prop :=
  -1 ≤ s'.pointer ∧
  (s'.state ∈ [0, 2, 3, 4, 5, 6, 7, 8] → s'.buffer = []) ∧
  (s'.state = 9 → (s'.buffer.length : Int) ≤ s'.pointer + 1) ∧
  ((s'.state = s.state ∧
      s'.skip_authority_shortcut = s.skip_authority_shortcut ∧
      s.pointer ≤ s'.pointer) ∨
   (s.state < s'.state ∧ s'.state ≤ 19) ∨
   (s'.state = s.state ∧ s.skip_authority_shortcut = false ∧
      s'.skip_authority_shortcut = true ∧ s'.pointer = s.pointer - 1))

/-- The two records of the C1 round-trip evaluation. -/
def c1R1 : URL :=
  { URL.init with
    scheme := ("mailto").toList,
    path := Sum.inl (("a@b").toList) }

def c1R2 : URL :=
  { URL.init with
    scheme := ("mailto").toList,
    username := ("a").toList,
    hostname := some (Host.str (("b").toList)) }

/-- The parse of `"http://h:80/"` (C9). -/
def c9R : URL :=
  { URL.init with
    scheme := ("http").toList,
    is_special := true,
    hostname := some (Host.str (("h").toList)),
    port_token_seen := true,
    default_port_seen := true,
    path := Sum.inr [[]] }

/-- A machine state in the PORT state with buffer `"80"` under scheme
`http` (C9 witness). -/
def c9S : PState :=
  { url := { URL.init with scheme := ("http").toList, is_special := true },
    state := 11, buffer := ("80").toList, at_sign_seen := false,
    inside_brackets := false, skip_authority_shortcut := false,
    pointer := 9, encoding := ("utf-8") }

/-- The input `"http://h?α"` (C6): U+03B1 is unmappable in windows-1252,
so the xmlcharrefreplace fallback applies on the real codec exactly as in
the modelled one. -/
def c6Input : Str := ("http://h?").toList ++ [Char.ofNat 945]

/-- A parse context with the default encode sets (C6 witness). -/
def c6Ctx : PCtx :=
  { input := [], base := none, userinfo_set := USERINFO_PERCENT_ENCODE_SET,
    path_set := PATH_PERCENT_ENCODE_SET, query_set := QUERY_PERCENT_ENCODE_SET,
    special_query_set := SPECIAL_QUERY_PERCENT_ENCODE_SET,
    fragment_set := FRAGMENT_PERCENT_ENCODE_SET }

/-- A machine state in the QUERY state under scheme `http` with a
non-UTF-8 output encoding (C6 witness). -/
def c6S : PState :=
  { url := { URL.init with
      scheme := ("http").toList, is_special := true, query := some [] },
    state := 18, buffer := [Char.ofNat 945], at_sign_seen := false,
    inside_brackets := false, skip_authority_shortcut := false,
    pointer := 9, encoding := ("windows-1252") }

/-! # Theorems -/

theorem contains_iff (A : PercentEncodeSet) (c : Char) :
    A.contains c = true ↔ (c ∈ A.code_points ∨ c.toNat > A.greater_than) := by
  simp [PercentEncodeSet.contains, List.elem_iff]

/-- Claim C4 (counterexample): with `A = ({x}, threshold 200)` and
`B = (∅, threshold 50)`, the code point `x` is in `A` (explicit member) and
in `B` (`ord x = 120 > 50`), but not in `A & B` (not an explicit member of
the intersection, and `120 ≤ max 200 50`), so the claimed equivalence
`(A & B).contains c ↔ A.contains c ∧ B.contains c` is false. -/
theorem c4_intersection_counterexample :
    (PercentEncodeSet.mk [('x')] 200).contains 'x' = true ∧
    (PercentEncodeSet.mk [] 50).contains 'x' = true ∧
    ((PercentEncodeSet.mk [('x')] 200).inter (PercentEncodeSet.mk [] 50)).contains 'x'
      = false := by decide

/-- Claim C4 (amended): for all percent-encode sets `A`, `B` and code points
`c`, `x`: `(A | B)` contains `c` iff `A` contains `c` or `B` contains `c`;
`(A & B)` containing `c` implies that `A` and `B` both contain `c`, and the
converse holds whenever `A` and `B` have the same threshold (for unequal
thresholds it can fail, see the counterexample); `(A + x)` contains `x`;
membership is "explicit member or ordinal above threshold"; union takes the
minimum and intersection the maximum threshold. -/
theorem c4_encode_set_algebra (A B : PercentEncodeSet) (c x : Char) :
    ((A.union B).contains c = true ↔ (A.contains c = true ∨ B.contains c = true)) ∧
    ((A.inter B).contains c = true → (A.contains c = true ∧ B.contains c = true)) ∧
    (A.greater_than = B.greater_than →
      ((A.inter B).contains c = true ↔ (A.contains c = true ∧ B.contains c = true))) ∧
    ((A.add [x]).contains x = true) ∧
    (A.contains c = true ↔ (c ∈ A.code_points ∨ c.toNat > A.greater_than)) ∧
    ((A.union B).greater_than = min A.greater_than B.greater_than) ∧
    ((A.inter B).greater_than = max A.greater_than B.greater_than) := by
  refine ⟨?_, ?_, ?_, ?_, contains_iff A c, rfl, rfl⟩
  · simp only [contains_iff, PercentEncodeSet.union, List.mem_dedup, List.mem_append]
    have : c.toNat > min A.greater_than B.greater_than ↔
        (c.toNat > A.greater_than ∨ c.toNat > B.greater_than) := by omega
    tauto
  · simp only [contains_iff, PercentEncodeSet.inter, List.mem_dedup, List.mem_filter,
      List.elem_iff]
    intro h
    rcases h with ⟨h1, h2⟩ | h
    · exact ⟨Or.inl h1, Or.inl (by simpa using h2)⟩
    · exact ⟨Or.inr (by omega), Or.inr (by omega)⟩
  · intro ht
    simp only [contains_iff, PercentEncodeSet.inter, List.mem_dedup, List.mem_filter,
      List.elem_iff, ht]
    constructor
    · rintro (⟨h1, h2⟩ | h)
      · exact ⟨Or.inl h1, Or.inl (by simpa using h2)⟩
      · exact ⟨Or.inr (by omega), Or.inr (by omega)⟩
    · rintro ⟨h1 | h1, h2 | h2⟩
      · exact Or.inl ⟨h1, by simpa using h2⟩
      · exact Or.inr (by omega)
      · exact Or.inr (by omega)
      · exact Or.inr (by omega)
  · simp [contains_iff, PercentEncodeSet.add]

/-- Witness for C4 at concrete sets with equal thresholds: the query and
fragment sets both have threshold `0x7E`, and the intersection law holds
there, e.g. at `c = '"'`. -/
theorem c4_encode_set_algebra_witness :
    QUERY_PERCENT_ENCODE_SET.greater_than = FRAGMENT_PERCENT_ENCODE_SET.greater_than ∧
    ((QUERY_PERCENT_ENCODE_SET.inter FRAGMENT_PERCENT_ENCODE_SET).contains '"' = true ↔
      (QUERY_PERCENT_ENCODE_SET.contains '"' = true ∧
        FRAGMENT_PERCENT_ENCODE_SET.contains '"' = true)) :=
  ⟨by decide,
   (c4_encode_set_algebra QUERY_PERCENT_ENCODE_SET FRAGMENT_PERCENT_ENCODE_SET '"'
     'q').2.2.1 (by decide)⟩

/-! ### C2: idempotent percent-encoding -/

theorem pct_cons_not_contains (S : PercentEncodeSet) (b : Nat) (rest : List Nat)
    (h : S.contains (Char.ofNat b) = false) :
    pctEncodeBytes S false (b :: rest) = Char.ofNat b :: pctEncodeBytes S false rest := by
  simp [pctEncodeBytes, h]

theorem pctEncodeBytes_append_escape (S : PercentEncodeSet) (bs1 bs2 : List Nat)
    (b1 b2 : Nat) (h1 : isAsciiHexDigit (Char.ofNat b1) = true)
    (h2 : isAsciiHexDigit (Char.ofNat b2) = true)
    (hS : ∀ b : Nat, isAsciiHexDigit (Char.ofNat b) = true →
      S.contains (Char.ofNat b) = false) :
    pctEncodeBytes S false (bs1 ++ 0x25 :: b1 :: b2 :: bs2) =
      pctEncodeBytes S false bs1 ++
        '%' :: Char.ofNat b1 :: Char.ofNat b2 :: pctEncodeBytes S false bs2 := by
  have e1 := hS b1 h1
  have e2 := hS b2 h2
  have hx25 : isAsciiHexDigit (Char.ofNat 0x25) = false := by decide
  induction bs1 with
  | nil =>
    by_cases hp : S.contains (Char.ofNat 0x25) = true
    · simp [pctEncodeBytes, hp, h1, h2, e1, e2]
    · simp [pctEncodeBytes, hp, h1, h2, e1, e2]
  | cons b bs ih =>
    rcases bs with _ | ⟨x, _ | ⟨y, tl⟩⟩
    · simp only [List.cons_append, List.nil_append] at ih ⊢
      by_cases hb : S.contains (Char.ofNat b) = true <;>
        by_cases hbp : (Char.ofNat b == '%') = true <;>
          simp [pctEncodeBytes, hb, hbp, e1, e2, h1, h2, hx25] at ih ⊢ <;>
            simp [ih]
    · simp only [List.cons_append, List.singleton_append] at ih ⊢
      by_cases hb : S.contains (Char.ofNat b) = true <;>
        by_cases hbp : (Char.ofNat b == '%') = true <;>
          simp [pctEncodeBytes, hb, hbp, e1, e2, h1, h2, hx25] at ih ⊢ <;>
            simp [ih]
    · simp only [List.cons_append] at ih ⊢
      by_cases hb : S.contains (Char.ofNat b) = true <;>
        by_cases hbp : (Char.ofNat b == '%') = true <;>
          simp [pctEncodeBytes, hb, hbp, e1, e2, h1, h2, hx25] at ih ⊢ <;>
            simp [ih]

theorem utf8_single_byte (c : Char) (h : c.toNat < 0x80) :
    utf8EncodeChar c = [c.toNat] := by
  simp [utf8EncodeChar, h]

theorem encodeBytes_utf8_append (a b : Str) :
    encodeBytes ("utf-8") (a ++ b) = encodeBytes ("utf-8") a ++ encodeBytes ("utf-8") b := by
  simp [encodeBytes]

/-- Claim C2 (counterexample): the standard query and path sets do not
contain `%`, so a `%` that is *not* followed by two hex digits is emitted
unchanged, not as `%25` as the claim states: encoding the one-character
string `"%"` yields `"%"`. -/
theorem c2_percent_not_reencoded_counterexample :
    percent_encode_after_encoding ("utf-8") [('%')] QUERY_PERCENT_ENCODE_SET false
      = [('%')] ∧
    idempotent_utf_8_percent_encode [('%')] 0 PATH_PERCENT_ENCODE_SET = [('%')] ∧
    [('%')] ≠ ("%25").toList := by decide

/-- Claim C2 (amended): for the standard query, special-query, path and
fragment encode sets, a well-formed `%HH` passes through the percent
encoder untouched (the output splits around it); the idempotency rule
(`%` followed by two hex digits emitted literally, otherwise `%25`) applies
exactly when the encode set contains `%` — the standard sets do not, so
with them a bare `%` is emitted unchanged rather than as `%25`. -/
theorem c2_no_double_encoding (S : PercentEncodeSet) (a b : Str) (d1 d2 : Char)
    (hS : S ∈ [QUERY_PERCENT_ENCODE_SET, SPECIAL_QUERY_PERCENT_ENCODE_SET,
      PATH_PERCENT_ENCODE_SET, FRAGMENT_PERCENT_ENCODE_SET])
    (h1 : isAsciiHexDigit d1 = true) (h2 : isAsciiHexDigit d2 = true) :
    (percent_encode_after_encoding ("utf-8") (a ++ '%' :: d1 :: d2 :: b) S false =
      percent_encode_after_encoding ("utf-8") a S false ++ '%' :: d1 :: d2 ::
        percent_encode_after_encoding ("utf-8") b S false) ∧
    (S.contains '%' = false) ∧
    (∀ input ptr, input.getD ptr (Char.ofNat 0) = '%' →
      idempotent_utf_8_percent_encode input ptr S = [('%')]) ∧
    (∀ (T : PercentEncodeSet) (input : Str) (ptr : Nat), T.contains '%' = true →
      input.getD ptr (Char.ofNat 0) = '%' →
      (ptr + 2 < input.length ∧ isAsciiHexDigit (input.getD (ptr + 1) (Char.ofNat 0)) ∧
          isAsciiHexDigit (input.getD (ptr + 2) (Char.ofNat 0)) →
        idempotent_utf_8_percent_encode input ptr T = [('%')]) ∧
      (ptr + 2 ≥ input.length ∨ isAsciiHexDigit (input.getD (ptr + 1) (Char.ofNat 0)) = false ∨
          isAsciiHexDigit (input.getD (ptr + 2) (Char.ofNat 0)) = false →
        idempotent_utf_8_percent_encode input ptr T = ("%25").toList)) := by
  have hmem : ∀ d ∈ ASCII_HEX_DIGIT, S.contains d = false := by
    fin_cases hS <;> decide
  have hpct : S.contains '%' = false := by fin_cases hS <;> decide
  have hhexS : ∀ x : Nat, isAsciiHexDigit (Char.ofNat x) = true →
      S.contains (Char.ofNat x) = false := by
    intro x hx
    exact hmem _ (by simpa [isAsciiHexDigit, List.elem_iff] using hx)
  have hlt : ∀ d ∈ ASCII_HEX_DIGIT, d.toNat < 0x80 := by decide
  have hd1lt : d1.toNat < 0x80 :=
    hlt d1 (by simpa [isAsciiHexDigit, List.elem_iff] using h1)
  have hd2lt : d2.toNat < 0x80 :=
    hlt d2 (by simpa [isAsciiHexDigit, List.elem_iff] using h2)
  refine ⟨?_, hpct, ?_, ?_⟩
  · unfold percent_encode_after_encoding
    have hb : encodeBytes ("utf-8") ('%' :: d1 :: d2 :: b) =
        0x25 :: d1.toNat :: d2.toNat :: encodeBytes ("utf-8") b := by
      show encodeBytes ("utf-8") (['%'] ++ [d1] ++ [d2] ++ b) = _
      rw [encodeBytes_utf8_append, encodeBytes_utf8_append, encodeBytes_utf8_append]
      have e1 : encodeBytes ("utf-8") [('%')] = [0x25] := by decide
      have e2 : encodeBytes ("utf-8") [d1] = [d1.toNat] := by
        simp [encodeBytes, utf8_single_byte d1 hd1lt]
      have e3 : encodeBytes ("utf-8") [d2] = [d2.toNat] := by
        simp [encodeBytes, utf8_single_byte d2 hd2lt]
      rw [e1, e2, e3]
      rfl
    rw [encodeBytes_utf8_append, hb]
    have r := pctEncodeBytes_append_escape S (encodeBytes ("utf-8") a)
      (encodeBytes ("utf-8") b) d1.toNat d2.toNat
      (by rwa [Char.ofNat_toNat]) (by rwa [Char.ofNat_toNat]) hhexS
    rw [r, Char.ofNat_toNat, Char.ofNat_toNat]
  · intro input ptr hc
    have h37 : Char.ofNat 37 = '%' := by decide
    unfold idempotent_utf_8_percent_encode
    simp only [hc]
    simp [hpct, utf_8_percent_encode, percent_encode_after_encoding, encodeBytes,
      utf8EncodeChar, pctEncodeBytes, h37]
  · intro T input ptr hT hc
    constructor
    · rintro ⟨hlen, hx1, hx2⟩
      have hnl : ¬ (ptr + 2 ≥ input.length) := by omega
      unfold idempotent_utf_8_percent_encode
      simp only [hc]
      simp only [List.getD_eq_getElem?_getD] at hx1 hx2
      simp [hT, hx1, hx2, hnl]
    · intro hbad
      unfold idempotent_utf_8_percent_encode
      simp only [hc]
      simp only [List.getD_eq_getElem?_getD] at hbad
      rcases hbad with hb | hb | hb
      · simp [hT, hb]
      · simp [hT, hb]
      · simp [hT, hb]

/-- Witness for C2 at `S` the path set, around the escape `%2F`. -/
theorem c2_no_double_encoding_witness :
    percent_encode_after_encoding ("utf-8") ([('a'), (' ')] ++ '%' :: '2' :: 'F' :: [])
        PATH_PERCENT_ENCODE_SET false =
      percent_encode_after_encoding ("utf-8") [('a'), (' ')] PATH_PERCENT_ENCODE_SET
          false ++ '%' :: '2' :: 'F' ::
        percent_encode_after_encoding ("utf-8") [] PATH_PERCENT_ENCODE_SET false :=
  (c2_no_double_encoding PATH_PERCENT_ENCODE_SET [('a'), (' ')] [] '2' 'F'
    (by decide) (by decide) (by decide)).1

/-! ### C7: the `check_hyphens` positions-3-4 rule -/

/-- Claim C7: the source tests `label[3:4] == "--"` — a one-code-point
slice compared against a two-code-point string, which is never equal — so
the "no `--` in positions 3 and 4" rule never fires: the label `"ab--c"`
has `-` as its 3rd and 4th code points (indices 2 and 3) and length 5, yet
validates successfully under `check_hyphens`.  The leading- and
trailing-hyphen checks of the same block do fire. -/
theorem c7_hyphen34_check_never_fires :
    (("ab--c").toList.getD 2 (Char.ofNat 0) = '-' ∧
     ("ab--c").toList.getD 3 (Char.ofNat 0) = '-' ∧
     ("ab--c").toList.length ≥ 4) ∧
    validate_label (("ab--c").toList) true false false false false = .ok () ∧
    validate_label (("-ab").toList) true false false false false = .error () ∧
    validate_label (("ab-").toList) true false false false false = .error () :=
  ⟨⟨rfl, rfl, by decide⟩, rfl, rfl, rfl⟩

/-! ### C8: IPv4 round trip -/

theorem digitVal_decDigitChar (d : Nat) (h : d < 10) :
    digitVal (decDigitChar d) = d := by
  interval_cases d <;> decide

theorem decDigitChar_mem_digits (d : Nat) (h : d < 10) :
    decDigitChar d ∈ ASCII_DIGIT := by
  interval_cases d <;> decide

theorem strToNatBase_decDigits (l : List Nat) (hl : ∀ d ∈ l, d < 10) (a : Nat) :
    ((l.reverse.map decDigitChar).foldl (fun acc c => acc * 10 + digitVal c) a) =
      a * 10 ^ l.length + Nat.ofDigits 10 l := by
  induction l generalizing a with
  | nil => simp
  | cons d l ih =>
    have hd : d < 10 := hl d (by simp)
    have hl' : ∀ x ∈ l, x < 10 := fun x hx => hl x (by simp [hx])
    simp only [List.reverse_cons, List.map_append, List.foldl_append, List.map_cons,
      List.map_nil, List.foldl_cons, List.foldl_nil, ih hl']
    rw [digitVal_decDigitChar d hd, Nat.ofDigits_cons, List.length_cons, pow_succ]
    ring

theorem digitsFuel_eq_digits (b : Nat) (hb : 1 < b) :
    ∀ f n, n ≤ f → digitsFuel b f n = Nat.digits b n := by
  intro f
  induction f with
  | zero =>
    intro n hn
    have h0 : n = 0 := by omega
    subst h0
    simp [digitsFuel]
  | succ f ih =>
    intro n hn
    rcases n with _ | m
    · simp [digitsFuel]
    · simp only [digitsFuel]
      rw [Nat.digits_def' hb (Nat.succ_pos m)]
      congr 1
      exact ih ((m + 1) / b) (by
        have := Nat.div_lt_self (show 0 < m + 1 by omega) hb
        omega)

theorem natToDecStr_digits (n : Nat) :
    natToDecStr n =
      if n = 0 then [('0')] else (Nat.digits 10 n).reverse.map decDigitChar := by
  unfold natToDecStr
  by_cases h : n = 0
  · simp [h]
  · simp only [h, if_false]
    rw [digitsFuel_eq_digits 10 (by norm_num) n n le_rfl]

theorem strToNatBase_natToDecStr (n : Nat) :
    strToNatBase 10 (natToDecStr n) = n := by
  rw [natToDecStr_digits]
  unfold strToNatBase
  by_cases h : n = 0
  · simp [h]
    decide
  · simp only [h, if_false]
    rw [strToNatBase_decDigits _ (fun d hd => Nat.digits_lt_base (by norm_num) hd) 0]
    simp [Nat.ofDigits_digits]

theorem natToDecStr_ne_nil (n : Nat) : natToDecStr n ≠ [] := by
  rw [natToDecStr_digits]
  by_cases h : n = 0
  · simp [h]
  · simp [h, Nat.digits_ne_nil_iff_ne_zero.mpr h]

theorem natToDecStr_mem_digit (n : Nat) : ∀ c ∈ natToDecStr n, c ∈ ASCII_DIGIT := by
  rw [natToDecStr_digits]
  by_cases h : n = 0
  · simp [h]
    decide
  · simp only [h, if_false]
    intro c hc
    simp only [List.mem_map, List.mem_reverse] at hc
    obtain ⟨d, hd, rfl⟩ := hc
    exact decDigitChar_mem_digits d (Nat.digits_lt_base (by norm_num) hd)

theorem natToDecStr_head_ne_zero (n : Nat) (h : 10 ≤ n) :
    (natToDecStr n).getD 0 (Char.ofNat 0) ≠ ('0') := by
  have hn : n ≠ 0 := by omega
  have hnil : Nat.digits 10 n ≠ [] := Nat.digits_ne_nil_iff_ne_zero.mpr hn
  obtain ⟨d, rest, hrev⟩ : ∃ d rest, (Nat.digits 10 n).reverse = d :: rest := by
    rcases hr : (Nat.digits 10 n).reverse with _ | ⟨d, rest⟩
    · exact absurd (by simpa using hr) hnil
    · exact ⟨d, rest, rfl⟩
  have h1 : (Nat.digits 10 n).reverse.head? = (Nat.digits 10 n).getLast? :=
    List.head?_reverse _
  rw [hrev, List.getLast?_eq_getLast _ hnil] at h1
  have hd0 : d ≠ 0 := by
    have hlast := Nat.getLast_digit_ne_zero 10 hn
    have : d = (Nat.digits 10 n).getLast hnil := by
      simpa using h1
    rw [this]
    exact hlast
  have hdlt : d < 10 := by
    have hmem : d ∈ Nat.digits 10 n := by
      have : d ∈ (Nat.digits 10 n).reverse := by rw [hrev]; simp
      simpa using this
    exact Nat.digits_lt_base (by norm_num) hmem
  rw [natToDecStr_digits]
  simp only [hn, if_false, hrev, List.map_cons, List.getD_cons_zero]
  interval_cases d <;> simp_all <;> decide

theorem natToDecStr_digit_ne_dot (n : Nat) : ∀ c ∈ natToDecStr n, c ≠ ('.') := by
  intro c hc
  have hd : ∀ x ∈ ASCII_DIGIT, x ≠ ('.') := by decide
  exact hd c (natToDecStr_mem_digit n c hc)

theorem splitDot_no_dot (a : Str) (h : ∀ c ∈ a, c ≠ ('.')) : splitDot a = [a] := by
  induction a with
  | nil => rfl
  | cons c rest ih =>
    have hc : c ≠ ('.') := h c (by simp)
    have ih' := ih (fun x hx => h x (by simp [hx]))
    simp [splitDot, hc, ih']

theorem splitDot_append (a rest : Str) (h : ∀ c ∈ a, c ≠ ('.')) :
    splitDot (a ++ ('.') :: rest) = a :: splitDot rest := by
  induction a with
  | nil => simp [splitDot]
  | cons c tl ih =>
    have hc : c ≠ ('.') := h c (by simp)
    have ih' := ih (fun x hx => h x (by simp [hx]))
    simp only [List.cons_append, splitDot, hc, if_false, List.append_eq, ih']

theorem parse_ipv4_number_natToDecStr (n : Nat) :
    parse_ipv4_number (natToDecStr n) = .ok (n, false) := by
  unfold parse_ipv4_number
  have hnil := natToDecStr_ne_nil n
  have hdig := natToDecStr_mem_digit n
  simp only [hnil, if_false]
  have hall : (natToDecStr n).all (isRadixDigit 10) = true := by
    rw [List.all_eq_true]
    intro c hc
    have hq : ∀ x ∈ ASCII_DIGIT, isRadixDigit 10 x = true := by decide
    exact hq c (hdig c hc)
  by_cases hlen : (natToDecStr n).length ≥ 2
  · have h10 : 10 ≤ n := by
      by_contra hlt
      push_neg at hlt
      have : (natToDecStr n).length = 1 := by
        rw [natToDecStr_digits]
        by_cases h0 : n = 0
        · simp [h0]
        · have : Nat.digits 10 n = [n] := by
            rw [Nat.digits_def' (b := 10) (by norm_num) (by omega)]
            simp [Nat.div_eq_of_lt hlt, Nat.mod_eq_of_lt hlt]
          simp [h0, this]
      omega
    have hx : (natToDecStr n).take 2 ≠ ("0X").toList ∧
        (natToDecStr n).take 2 ≠ ("0x").toList := by
      constructor <;> intro hcontra
      · have hX : ('X') ∈ (natToDecStr n).take 2 := by rw [hcontra]; decide
        have := hdig _ (List.mem_of_mem_take hX)
        have hq : ('X') ∉ ASCII_DIGIT := by decide
        exact hq this
      · have hx2 : ('x') ∈ (natToDecStr n).take 2 := by rw [hcontra]; decide
        have := hdig _ (List.mem_of_mem_take hx2)
        have hq : ('x') ∉ ASCII_DIGIT := by decide
        exact hq this
    have hhead : (natToDecStr n).getD 0 (Char.ofNat 0) ≠ ('0') :=
      natToDecStr_head_ne_zero n h10
    simp only [hlen, if_true, hx.1, hx.2, hhead, or_self, if_false, false_or]
    simp [hnil, hall, strToNatBase_natToDecStr]
  · simp only [hlen, if_false]
    simp [hnil, hall, strToNatBase_natToDecStr]

/-- Claim C8: for every 32-bit value `v`, parsing the canonical
dotted-decimal serialisation of `v` yields `v` back, and re-serialising
that reproduces the same string; the serializer and parser are mutually
inverse on canonical dotted-decimal strings. -/
theorem c8_ipv4_round_trip (v : Nat) (hv : v < 2 ^ 32) :
    parse_ipv4 (serialize_ipv4 v) = .ok v ∧
    (parse_ipv4 (serialize_ipv4 v)).map serialize_ipv4 = .ok (serialize_ipv4 v) := by
  have hser : serialize_ipv4 v =
      natToDecStr (v / 256 / 256 / 256 % 256) ++ ('.') ::
        (natToDecStr (v / 256 / 256 % 256) ++ ('.') ::
          (natToDecStr (v / 256 % 256) ++ ('.') :: natToDecStr (v % 256))) := by
    simp [serialize_ipv4]
  have hsplit : splitDot (serialize_ipv4 v) =
      [natToDecStr (v / 256 / 256 / 256 % 256), natToDecStr (v / 256 / 256 % 256),
       natToDecStr (v / 256 % 256), natToDecStr (v % 256)] := by
    rw [hser, splitDot_append _ _ (natToDecStr_digit_ne_dot _),
      splitDot_append _ _ (natToDecStr_digit_ne_dot _),
      splitDot_append _ _ (natToDecStr_digit_ne_dot _),
      splitDot_no_dot _ (natToDecStr_digit_ne_dot _)]
  have hmain : parse_ipv4 (serialize_ipv4 v) = .ok v := by
    unfold parse_ipv4
    rw [hsplit]
    have hne := natToDecStr_ne_nil (v % 256)
    have h1 : ([natToDecStr (v / 256 / 256 / 256 % 256), natToDecStr (v / 256 / 256 % 256),
         natToDecStr (v / 256 % 256), natToDecStr (v % 256)] : List Str).getLast? =
         some (natToDecStr (v % 256)) := by rfl
    simp only [h1, Option.some.injEq]
    rw [if_neg hne]
    simp only [List.length_cons, List.length_nil]
    rw [if_neg (by norm_num)]
    simp only [List.mapM_cons, List.mapM_nil, parse_ipv4_number_natToDecStr]
    simp only [Except.map, bind, Except.bind, pure, Except.pure]
    have hb1 : ¬ (v / 256 % 256 > 255) := by omega
    have hb2 : ¬ (v / 256 / 256 % 256 > 255) := by omega
    have hb3 : ¬ (v / 256 / 256 / 256 % 256 > 255) := by omega
    norm_num [List.dropLast, List.enum, List.enumFrom, hb1, hb2, hb3]
    rw [if_neg (show ¬ 256 ≤ v % 256 by omega)]
    exact congrArg Except.ok (by omega)
  exact ⟨hmain, by rw [hmain]; rfl⟩

/-- Witness for C8 at `v = 3232235521` (`192.168.0.1`). -/
theorem c8_ipv4_round_trip_witness :
    3232235521 < 2 ^ 32 ∧ parse_ipv4 (serialize_ipv4 3232235521) = .ok 3232235521 :=
  ⟨by norm_num, (c8_ipv4_round_trip 3232235521 (by norm_num)).1⟩

/-! ### C1: parse/serialize round trip -/

/-- Claim C1: the round trip is not the identity.  `"mailto:a@b"` parses to
an opaque-path record whose `hostname` is the *empty string* (the `_URL`
class default) rather than absent; because the serializer emits `//`
whenever `hostname is not None`, serialising with `canonicalize=None`
yields `"mailto://a@b"`, which the parser accepts but reads as username
`a`, host `b` and an empty segment-list path — a different record, so
`parse(serialize(parse(u))) ≠ parse(u)`. -/
theorem c1_round_trip_fails_at_mailto :
    parse_url (("mailto:a@b").toList) none ("utf-8") = .ok c1R1 ∧
    serialize_url c1R1 false none = ("mailto://a@b").toList ∧
    parse_url (("mailto://a@b").toList) none ("utf-8") = .ok c1R2 ∧
    c1R2 ≠ c1R1 ∧
    c1R1.path = Sum.inl (("a@b").toList) ∧
    c1R1.hostname = some (Host.str []) ∧
    c1R2.path = Sum.inr [] :=
  ⟨rfl, rfl, rfl, by decide, rfl, rfl, rfl⟩

/-! ### C9: default-port elision -/

theorem default_ports_le (scheme : Str) (p : Nat)
    (h : DEFAULT_PORTS scheme = some p) : p ≤ 2 ^ 16 - 1 := by
  unfold DEFAULT_PORTS at h
  split_ifs at h <;> simp_all <;> omega

/-- Claim C9: in the PORT state, a committed port equal to the scheme's
default is stored as absent with `default_port_seen = true`; in particular
`parse("http://h:80/")` has an absent port with `default_port_seen`, and
canonical serialisation (`canonicalize = True`) omits the `:80`. -/
theorem c9_default_port_elision :
    (∀ (s : PState) (re : Bool) (c : Char),
      ¬ (re = false ∧ ASCII_DIGIT.contains c = true) →
      (re = true ∨ c = '/' ∨ c = '?' ∨ c = '#' ∨
        (s.url.is_special = true ∧ c = '\\')) →
      s.buffer ≠ [] →
      DEFAULT_PORTS s.url.scheme = some (strToNatBase 10 s.buffer) →
      ∃ s', stepPort s re c = .ok s' ∧ s'.url.port = none ∧
        s'.url.default_port_seen = true ∧ s'.state = 15) ∧
    parse_url (("http://h:80/").toList) none ("utf-8") = .ok c9R ∧
    c9R.port = none ∧ c9R.default_port_seen = true ∧
    serialize_url c9R false (some true) = ("http://h/").toList := by
  refine ⟨?_, rfl, rfl, rfl, rfl⟩
  intro s re c h1 h2 h3 h4
  have hle := default_ports_le _ _ h4
  unfold stepPort
  rw [if_neg (by
    intro hcon
    rcases hcon with ⟨hre, hc⟩
    exact h1 ⟨by simpa using hre, hc⟩)]
  rw [if_pos (by
    rcases h2 with h | h | h | h | h
    · exact Or.inl (by simp [h])
    · exact Or.inr (Or.inl h)
    · exact Or.inr (Or.inr (Or.inl h))
    · exact Or.inr (Or.inr (Or.inr (Or.inl h)))
    · exact Or.inr (Or.inr (Or.inr (Or.inr ⟨h.1, h.2⟩))))]
  rw [if_pos h3]
  rw [if_neg (by omega)]
  rw [if_pos h4]
  exact ⟨_, rfl, rfl, rfl, rfl⟩

/-- Witness for C9's PORT-state conjunct at the concrete state `c9S`
(scheme `http`, buffer `"80"`, end of input). -/
theorem c9_default_port_elision_witness :
    ∃ s', stepPort c9S true (Char.ofNat 0) = .ok s' ∧ s'.url.port = none ∧
      s'.url.default_port_seen = true ∧ s'.state = 15 :=
  c9_default_port_elision.1 c9S true (Char.ofNat 0) (by decide) (Or.inl rfl)
    (by decide) (by decide)

/-! ### C6: the QUERY state's encoding and encode-set choice -/

set_option maxRecDepth 8000 in
/-- Claim C6 (counterexample): for `http` — a special scheme other than
`ws`/`wss` — the query is *not* encoded in UTF-8 when the caller passes a
non-UTF-8 output encoding: `"http://h?α"` parsed with `windows-1252` gives
the query `&%23945;` (the windows-1252 bytes of the `&#945;` character
reference, percent-encoded), while parsing with UTF-8 gives `%CE%B1`.  The
claim states the opposite condition (non-UTF-8 "only allowed when the URL
is non-special or ws/wss"). -/
theorem c6_query_encoding_counterexample :
    (parse_url c6Input none ("windows-1252")).map URL.query
      = .ok (some (("&%23945;").toList)) ∧
    (parse_url c6Input none ("utf-8")).map URL.query
      = .ok (some (("%CE%B1").toList)) ∧
    (("&%23945;").toList) ≠ (("%CE%B1").toList) ∧
    (parse_url c6Input none ("windows-1252")).map URL.is_special = .ok true ∧
    (parse_url c6Input none ("windows-1252")).map URL.scheme
      = .ok (("http").toList) :=
  ⟨rfl, rfl, by decide, rfl, rfl⟩

/-- Claim C6 (amended): in the QUERY state the buffer is percent-encoded
with the query set — the special-query set for special schemes — using the
current output encoding, where that encoding falls back to UTF-8 when the
URL is non-special or its scheme is `ws`/`wss`; consequently a non-UTF-8
encoding can only be used when the URL is special with a scheme other than
`ws`/`wss`. -/
theorem c6_query_state_encoding (ctx : PCtx) (s : PState) (re : Bool) (c : Char)
    (q : Str) (hq : s.url.query = some q) (hend : re = true ∨ c = '#') :
    (∃ s', stepQuery ctx s re c = .ok s' ∧
      s'.url.query = some (q ++ percent_encode_after_encoding
        (if s.encoding ≠ ("utf-8") ∧ (¬ s.url.is_special ∨
            s.url.scheme = ("ws").toList ∨ s.url.scheme = ("wss").toList) then
          ("utf-8") else s.encoding)
        s.buffer
        (if s.url.is_special then ctx.special_query_set else ctx.query_set) false)) ∧
    ((if s.encoding ≠ ("utf-8") ∧ (¬ s.url.is_special ∨
          s.url.scheme = ("ws").toList ∨ s.url.scheme = ("wss").toList) then
        ("utf-8") else s.encoding) ≠ ("utf-8") →
      s.url.is_special = true ∧ s.url.scheme ≠ ("ws").toList ∧
        s.url.scheme ≠ ("wss").toList) := by
  constructor
  · unfold stepQuery
    have hcond : (re = true ∨ c = '#') := hend
    rw [if_pos (by simpa using hcond)]
    simp only [hq]
    by_cases hf : ¬(re = true) ∧ c = '#'
    · rw [if_pos hf]
      exact ⟨_, rfl, rfl⟩
    · rw [if_neg hf]
      exact ⟨_, rfl, rfl⟩
  · intro hne
    split_ifs at hne with hcond
    · exact absurd rfl hne
    · push_neg at hcond
      by_cases hu : s.encoding = ("utf-8")
      · exact absurd hu hne
      · have h2 := hcond hu
        push_neg at h2
        exact ⟨h2.1, h2.2.1, h2.2.2⟩

/-- Witness for C6 at the concrete QUERY state `c6S` (scheme `http`,
encoding `windows-1252`, buffer `"α"`, end of input). -/
theorem c6_query_state_encoding_witness :
    (∃ s', stepQuery c6Ctx c6S true (Char.ofNat 0) = .ok s' ∧
      s'.url.query = some ([] ++ percent_encode_after_encoding
        (if c6S.encoding ≠ ("utf-8") ∧ (¬ c6S.url.is_special ∨
            c6S.url.scheme = ("ws").toList ∨ c6S.url.scheme = ("wss").toList) then
          ("utf-8") else c6S.encoding)
        c6S.buffer
        (if c6S.url.is_special then c6Ctx.special_query_set else c6Ctx.query_set)
        false)) ∧
    ((if c6S.encoding ≠ ("utf-8") ∧ (¬ c6S.url.is_special ∨
          c6S.url.scheme = ("ws").toList ∨ c6S.url.scheme = ("wss").toList) then
        ("utf-8") else c6S.encoding) ≠ ("utf-8") →
      c6S.url.is_special = true ∧ c6S.url.scheme ≠ ("ws").toList ∧
        c6S.url.scheme ≠ ("wss").toList) :=
  c6_query_state_encoding c6Ctx c6S true (Char.ofNat 0) [] rfl (Or.inl rfl)

/-! ### C5: the IPv6 serializer's zero-run elision -/

/-- Claim C5 (counterexample): at `[0,0,1,0,0,0,0,1]` the serializer elides
the later, longer zero run (giving `0:0:1::1`), not the leftmost run of
length at least two — that run starts at index 0 and eliding it would give
`::1:0:0:0:0:1`. -/
theorem c5_ipv6_leftmost_counterexample :
    serialize_ipv6 [0, 0, 1, 0, 0, 0, 0, 1] = ("0:0:1::1").toList ∧
    leftmostZeroRunStart [0, 0, 1, 0, 0, 0, 0, 1] = some 0 ∧
    leftmostSerializeIpv6 [0, 0, 1, 0, 0, 0, 0, 1] = ("::1:0:0:0:0:1").toList ∧
    serialize_ipv6 [0, 0, 1, 0, 0, 0, 0, 1] ≠
      leftmostSerializeIpv6 [0, 0, 1, 0, 0, 0, 0, 1] :=
  ⟨rfl, rfl, rfl, by decide⟩

set_option maxHeartbeats 4000000 in
/-- Claim C5 (amended): on every eight-piece address the serializer emits
lowercase hexadecimal pieces joined by `:` and substitutes `::` for the
*first longest* run of at least two consecutive zero pieces (never a single
zero piece; the run is introduced by `::` when it starts at index 0 and by
`:` otherwise, giving two adjacent colons either way). -/
theorem c5_ipv6_serializer (address : List Nat) (h : address.length = 8) :
    serialize_ipv6 address = specSerializeIpv6 address := by
  rcases address with _ | ⟨a0, r⟩
  · simp only [List.length_nil] at h
    omega
  rcases r with _ | ⟨a1, r⟩
  · simp only [List.length_cons, List.length_nil] at h
    omega
  rcases r with _ | ⟨a2, r⟩
  · simp only [List.length_cons, List.length_nil] at h
    omega
  rcases r with _ | ⟨a3, r⟩
  · simp only [List.length_cons, List.length_nil] at h
    omega
  rcases r with _ | ⟨a4, r⟩
  · simp only [List.length_cons, List.length_nil] at h
    omega
  rcases r with _ | ⟨a5, r⟩
  · simp only [List.length_cons, List.length_nil] at h
    omega
  rcases r with _ | ⟨a6, r⟩
  · simp only [List.length_cons, List.length_nil] at h
    omega
  rcases r with _ | ⟨a7, r⟩
  · simp only [List.length_cons, List.length_nil] at h
    omega
  rcases r with _ | ⟨a8, r⟩
  case cons.cons.cons.cons.cons.cons.cons.cons.cons =>
    simp only [List.length_cons, List.length_nil] at h
    omega
  have hr8 : List.range 8 = [0, 1, 2, 3, 4, 5, 6, 7] := rfl
  by_cases h0 : a0 = 0 <;> by_cases h1 : a1 = 0 <;> by_cases h2 : a2 = 0 <;>
    by_cases h3 : a3 = 0 <;> by_cases h4 : a4 = 0 <;> by_cases h5 : a5 = 0 <;>
    by_cases h6 : a6 = 0 <;> by_cases h7 : a7 = 0 <;>
    simp [serialize_ipv6, specSerializeIpv6, get_ipv6_first_longest_0_piece_index,
      firstLongestZeroRunStart, zeroRunLength, hr8, h0, h1, h2, h3, h4, h5, h6, h7,
      List.enum_cons, List.enumFrom_cons, List.intercalate]

/-- Witness for C5 at the concrete address `[1,2,3,0,0,0,5,6]`. -/
theorem c5_ipv6_serializer_witness :
    ([1, 2, 3, 0, 0, 0, 5, 6] : List Nat).length = 8 ∧
    serialize_ipv6 [1, 2, 3, 0, 0, 0, 5, 6] =
      specSerializeIpv6 [1, 2, 3, 0, 0, 0, 5, 6] :=
  ⟨rfl, c5_ipv6_serializer [1, 2, 3, 0, 0, 0, 5, 6] rfl⟩

/-! ### C10: termination of the parser loop

The per-state lemmas below show that each state block's `.ok` result
satisfies `BodyOk`: the measure `pMeasure` strictly decreases across one
loop iteration while the invariant `PInv` is maintained. -/

theorem bind_ok {α β : Type} (e : Except Unit α) (f : α → Except Unit β) (b : β)
    (h : (e >>= f) = .ok b) : ∃ a, e = .ok a ∧ f a = .ok b := by
  cases e with
  | error u => simp [Bind.bind, Except.bind] at h
  | ok a => exact ⟨a, rfl, by simpa [Bind.bind, Except.bind] using h⟩

theorem stepSchemeStart_spec (L : Nat) (s : PState) (re : Bool) (c : Char) (s' : PState)
    (hst : s.state = 0) (hinv : PInv L s)
    (h : stepSchemeStart s re c = .ok s') : BodyOk s s' := by
  unfold PInv at hinv
  obtain ⟨hp0, hpL, hbe, hb9⟩ := hinv
  have hb : s.buffer = [] := hbe (by simp [hst])
  unfold stepSchemeStart at h
  split_ifs at h
  all_goals cases h
  all_goals
    (simp [BodyOk, hst, hb]
     try omega)

theorem stepScheme_spec (ctx : PCtx) (L : Nat) (s : PState) (re : Bool) (c : Char)
    (s' : PState) (hst : s.state = 1) (hinv : PInv L s)
    (h : stepScheme ctx s re c = .ok s') : BodyOk s s' := by
  unfold PInv at hinv
  obtain ⟨hp0, hpL, hbe, hb9⟩ := hinv
  unfold stepScheme at h
  simp only [] at h
  split_ifs at h
  all_goals cases h
  all_goals
    (simp [BodyOk, hst]
     try omega)

theorem stepNoScheme_spec (ctx : PCtx) (L : Nat) (s : PState) (re : Bool) (c : Char)
    (s' : PState) (hst : s.state = 2) (hinv : PInv L s)
    (h : stepNoScheme ctx s re c = .ok s') : BodyOk s s' := by
  unfold PInv at hinv
  obtain ⟨hp0, hpL, hbe, hb9⟩ := hinv
  have hb : s.buffer = [] := hbe (by simp [hst])
  unfold stepNoScheme at h
  rcases hbase : ctx.base with _ | base <;> rw [hbase] at h
  · cases h
  · simp only [] at h
    split_ifs at h
    all_goals cases h
    all_goals
      (simp [BodyOk, hst, hb]
       try omega)

theorem stepSpecialRelativeOrAuthority_spec (ctx : PCtx) (L : Nat) (s : PState)
    (re : Bool) (c : Char) (s' : PState) (hst : s.state = 3) (hinv : PInv L s)
    (h : stepSpecialRelativeOrAuthority ctx s re c = .ok s') : BodyOk s s' := by
  unfold PInv at hinv
  obtain ⟨hp0, hpL, hbe, hb9⟩ := hinv
  have hb : s.buffer = [] := hbe (by simp [hst])
  unfold stepSpecialRelativeOrAuthority at h
  split_ifs at h
  all_goals cases h
  all_goals
    (simp [BodyOk, hst, hb]
     try omega)

theorem stepPathOrAuthority_spec (L : Nat) (s : PState) (re : Bool) (c : Char)
    (s' : PState) (hst : s.state = 4) (hinv : PInv L s)
    (h : stepPathOrAuthority s re c = .ok s') : BodyOk s s' := by
  unfold PInv at hinv
  obtain ⟨hp0, hpL, hbe, hb9⟩ := hinv
  have hb : s.buffer = [] := hbe (by simp [hst])
  unfold stepPathOrAuthority at h
  split_ifs at h
  all_goals cases h
  all_goals
    (simp [BodyOk, hst, hb]
     try omega)

theorem stepRelative_spec (ctx : PCtx) (L : Nat) (s : PState) (re : Bool) (c : Char)
    (s' : PState) (hst : s.state = 5) (hinv : PInv L s)
    (h : stepRelative ctx s re c = .ok s') : BodyOk s s' := by
  unfold PInv at hinv
  obtain ⟨hp0, hpL, hbe, hb9⟩ := hinv
  have hb : s.buffer = [] := hbe (by simp [hst])
  unfold stepRelative at h
  rcases hbase : ctx.base with _ | base <;> rw [hbase] at h
  · cases h
  · simp only [] at h
    split_ifs at h
    all_goals cases h
    all_goals
      (simp [BodyOk, hst, hb]
       try omega)

theorem stepRelativeSlash_spec (ctx : PCtx) (L : Nat) (s : PState) (re : Bool)
    (c : Char) (s' : PState) (hst : s.state = 6) (hinv : PInv L s)
    (h : stepRelativeSlash ctx s re c = .ok s') : BodyOk s s' := by
  unfold PInv at hinv
  obtain ⟨hp0, hpL, hbe, hb9⟩ := hinv
  have hb : s.buffer = [] := hbe (by simp [hst])
  unfold stepRelativeSlash at h
  split_ifs at h
  all_goals try cases h
  all_goals try
    (simp [BodyOk, hst, hb]
     try omega
     done)
  all_goals
    (rcases hbase : ctx.base with _ | base <;> rw [hbase] at h <;>
      simp only [] at h <;> cases h)
  all_goals
    (simp [BodyOk, hst, hb]
     try omega)

theorem stepSpecialAuthoritySlashes_spec (ctx : PCtx) (L : Nat) (s : PState)
    (re : Bool) (c : Char) (s' : PState) (hst : s.state = 7) (hinv : PInv L s)
    (h : stepSpecialAuthoritySlashes ctx s re c = .ok s') : BodyOk s s' := by
  unfold PInv at hinv
  obtain ⟨hp0, hpL, hbe, hb9⟩ := hinv
  have hb : s.buffer = [] := hbe (by simp [hst])
  unfold stepSpecialAuthoritySlashes at h
  split_ifs at h
  all_goals cases h
  all_goals
    (simp [BodyOk, hst, hb]
     try omega)

theorem stepSpecialAuthorityIgnoreSlashes_spec (L : Nat) (s : PState) (re : Bool)
    (c : Char) (s' : PState) (hst : s.state = 8) (hinv : PInv L s)
    (h : stepSpecialAuthorityIgnoreSlashes s re c = .ok s') : BodyOk s s' := by
  unfold PInv at hinv
  obtain ⟨hp0, hpL, hbe, hb9⟩ := hinv
  have hb : s.buffer = [] := hbe (by simp [hst])
  unfold stepSpecialAuthorityIgnoreSlashes at h
  split_ifs at h
  all_goals cases h
  all_goals
    (simp [BodyOk, hst, hb]
     try omega)

theorem stepAuthority_spec (ctx : PCtx) (L : Nat) (s : PState) (re : Bool) (c : Char)
    (s' : PState) (hst : s.state = 9) (hinv : PInv L s)
    (h : stepAuthority ctx s re c = .ok s') : BodyOk s s' := by
  unfold PInv at hinv
  obtain ⟨hp0, hpL, hbe, hb9⟩ := hinv
  have hb9' : (s.buffer.length : Int) ≤ s.pointer := hb9 hst
  unfold stepAuthority at h
  simp only [] at h
  split_ifs at h with h1 h2 h3 h4 h5
  all_goals try cases h
  all_goals
    (simp [BodyOk, hst, h1]
     try omega)

theorem stepHost_spec (L : Nat) (s : PState) (re : Bool) (c : Char)
    (s' : PState) (hst : s.state = 10) (hinv : PInv L s)
    (h : stepHost s re c = .ok s') : BodyOk s s' := by
  unfold PInv at hinv
  obtain ⟨hp0, hpL, hbe, hb9⟩ := hinv
  unfold stepHost at h
  simp only [] at h
  split_ifs at h
  all_goals try cases h
  all_goals try
    (simp [BodyOk, hst]
     try omega
     done)
  all_goals (obtain ⟨host, hh, h⟩ := bind_ok _ _ _ h)
  all_goals try simp only [] at h
  all_goals cases h
  all_goals
    (simp [BodyOk, hst]
     try omega)

theorem stepPort_spec (L : Nat) (s : PState) (re : Bool) (c : Char)
    (s' : PState) (hst : s.state = 11) (hinv : PInv L s)
    (h : stepPort s re c = .ok s') : BodyOk s s' := by
  unfold PInv at hinv
  obtain ⟨hp0, hpL, hbe, hb9⟩ := hinv
  unfold stepPort at h
  simp only [] at h
  split_ifs at h
  all_goals cases h
  all_goals
    (simp [BodyOk, hst]
     try omega)

theorem stepFile_spec (ctx : PCtx) (L : Nat) (s : PState) (re : Bool) (c : Char)
    (s' : PState) (hst : s.state = 12) (hinv : PInv L s)
    (h : stepFile ctx s re c = .ok s') : BodyOk s s' := by
  unfold PInv at hinv
  obtain ⟨hp0, hpL, hbe, hb9⟩ := hinv
  unfold stepFile at h
  simp only [] at h
  split_ifs at h
  all_goals try cases h
  all_goals try
    (simp [BodyOk, hst]
     try omega
     done)
  all_goals
    (rcases hbase : ctx.base with _ | base <;> rw [hbase] at h <;>
      simp only [] at h <;> try split_ifs at h)
  all_goals try cases h
  all_goals
    (simp [BodyOk, hst]
     try omega)

theorem stepFileSlash_spec (ctx : PCtx) (L : Nat) (s : PState) (re : Bool) (c : Char)
    (s' : PState) (hst : s.state = 13) (hinv : PInv L s)
    (h : stepFileSlash ctx s re c = .ok s') : BodyOk s s' := by
  unfold PInv at hinv
  obtain ⟨hp0, hpL, hbe, hb9⟩ := hinv
  unfold stepFileSlash at h
  simp only [] at h
  split_ifs at h
  all_goals try cases h
  all_goals try
    (simp [BodyOk, hst]
     try omega
     done)
  all_goals
    (rcases hbase : ctx.base with _ | base <;> rw [hbase] at h <;>
      simp only [] at h <;> try split_ifs at h)
  all_goals try cases h
  all_goals try
    (simp [BodyOk, hst]
     try omega
     done)
  all_goals
    (rcases hpath : base.path with p | p <;> rw [hpath] at h <;>
      rcases p with _ | ⟨p0, prest⟩ <;> simp only [] at h <;> try cases h)
  all_goals try split_ifs at h
  all_goals try cases h
  all_goals try
    (simp [BodyOk, hst]
     try omega
     done)
  all_goals (obtain ⟨u2, hu2, h⟩ := bind_ok _ _ _ h)
  all_goals try simp only [] at h
  all_goals cases h
  all_goals
    (simp [BodyOk, hst]
     try omega)

theorem stepFileHost_spec (L : Nat) (s : PState) (re : Bool) (c : Char)
    (s' : PState) (hst : s.state = 14) (hinv : PInv L s)
    (h : stepFileHost s re c = .ok s') : BodyOk s s' := by
  unfold PInv at hinv
  obtain ⟨hp0, hpL, hbe, hb9⟩ := hinv
  unfold stepFileHost at h
  simp only [] at h
  split_ifs at h
  all_goals try cases h
  all_goals try
    (simp [BodyOk, hst]
     try omega
     done)
  all_goals (obtain ⟨host, hh, h⟩ := bind_ok _ _ _ h)
  all_goals try simp only [] at h
  all_goals try split_ifs at h
  all_goals cases h
  all_goals
    (simp [BodyOk, hst]
     try omega)

theorem stepPathStart_spec (L : Nat) (s : PState) (re : Bool) (c : Char)
    (s' : PState) (hst : s.state = 15) (hinv : PInv L s)
    (h : stepPathStart s re c = .ok s') : BodyOk s s' := by
  unfold PInv at hinv
  obtain ⟨hp0, hpL, hbe, hb9⟩ := hinv
  unfold stepPathStart at h
  split_ifs at h
  all_goals cases h
  all_goals
    (simp [BodyOk, hst]
     try omega)

theorem stepPath_spec (ctx : PCtx) (L : Nat) (s : PState) (re : Bool) (c : Char)
    (s' : PState) (hst : s.state = 16) (hinv : PInv L s)
    (h : stepPath ctx s re c = .ok s') : BodyOk s s' := by
  unfold PInv at hinv
  obtain ⟨hp0, hpL, hbe, hb9⟩ := hinv
  unfold stepPath at h
  simp only [] at h
  split_ifs at h
  all_goals try cases h
  all_goals try
    (simp [BodyOk, hst]
     try omega
     done)
  all_goals (obtain ⟨url, hurl, h⟩ := bind_ok _ _ _ h)
  all_goals try simp only [] at h
  all_goals try split_ifs at h
  all_goals cases h
  all_goals
    (simp [BodyOk, hst]
     try omega)

theorem stepOpaquePath_spec (L : Nat) (s : PState) (re : Bool) (c : Char)
    (s' : PState) (hst : s.state = 17) (hinv : PInv L s)
    (h : stepOpaquePath s re c = .ok s') : BodyOk s s' := by
  unfold PInv at hinv
  obtain ⟨hp0, hpL, hbe, hb9⟩ := hinv
  unfold stepOpaquePath at h
  simp only [] at h
  split_ifs at h
  all_goals try cases h
  all_goals try
    (simp [BodyOk, hst]
     try omega
     done)
  all_goals split at h
  all_goals cases h
  all_goals
    (simp [BodyOk, hst]
     try omega)

theorem stepQuery_spec (ctx : PCtx) (L : Nat) (s : PState) (re : Bool) (c : Char)
    (s' : PState) (hst : s.state = 18) (hinv : PInv L s)
    (h : stepQuery ctx s re c = .ok s') : BodyOk s s' := by
  unfold PInv at hinv
  obtain ⟨hp0, hpL, hbe, hb9⟩ := hinv
  unfold stepQuery at h
  simp only [] at h
  split_ifs at h
  all_goals try cases h
  all_goals try
    (simp [BodyOk, hst]
     try omega
     done)
  all_goals split at h
  all_goals try split_ifs at h
  all_goals cases h
  all_goals
    (simp [BodyOk, hst]
     try omega)

theorem stepFragment_spec (ctx : PCtx) (L : Nat) (s : PState) (re : Bool) (c : Char)
    (s' : PState) (hst : s.state = 19) (hinv : PInv L s)
    (h : stepFragment ctx s re c = .ok s') : BodyOk s s' := by
  unfold PInv at hinv
  obtain ⟨hp0, hpL, hbe, hb9⟩ := hinv
  unfold stepFragment at h
  simp only [] at h
  split_ifs at h
  all_goals try cases h
  all_goals try
    (simp [BodyOk, hst]
     try omega
     done)
  all_goals split at h
  all_goals cases h
  all_goals
    (simp [BodyOk, hst]
     try omega)

theorem stepBody_spec (ctx : PCtx) (L : Nat) (s : PState) (re : Bool) (c : Char)
    (s' : PState) (hinv : PInv L s) (h : stepBody ctx s re c = .ok s') :
    BodyOk s s' := by
  unfold stepBody at h
  by_cases h0 : s.state = 0
  · rw [if_pos h0] at h
    exact stepSchemeStart_spec L s re c s' h0 hinv h
  rw [if_neg h0] at h
  by_cases h1 : s.state = 1
  · rw [if_pos h1] at h
    exact stepScheme_spec ctx L s re c s' h1 hinv h
  rw [if_neg h1] at h
  by_cases h2 : s.state = 2
  · rw [if_pos h2] at h
    exact stepNoScheme_spec ctx L s re c s' h2 hinv h
  rw [if_neg h2] at h
  by_cases h3 : s.state = 3
  · rw [if_pos h3] at h
    exact stepSpecialRelativeOrAuthority_spec ctx L s re c s' h3 hinv h
  rw [if_neg h3] at h
  by_cases h4 : s.state = 4
  · rw [if_pos h4] at h
    exact stepPathOrAuthority_spec L s re c s' h4 hinv h
  rw [if_neg h4] at h
  by_cases h5 : s.state = 5
  · rw [if_pos h5] at h
    exact stepRelative_spec ctx L s re c s' h5 hinv h
  rw [if_neg h5] at h
  by_cases h6 : s.state = 6
  · rw [if_pos h6] at h
    exact stepRelativeSlash_spec ctx L s re c s' h6 hinv h
  rw [if_neg h6] at h
  by_cases h7 : s.state = 7
  · rw [if_pos h7] at h
    exact stepSpecialAuthoritySlashes_spec ctx L s re c s' h7 hinv h
  rw [if_neg h7] at h
  by_cases h8 : s.state = 8
  · rw [if_pos h8] at h
    exact stepSpecialAuthorityIgnoreSlashes_spec L s re c s' h8 hinv h
  rw [if_neg h8] at h
  by_cases h9 : s.state = 9
  · rw [if_pos h9] at h
    exact stepAuthority_spec ctx L s re c s' h9 hinv h
  rw [if_neg h9] at h
  by_cases h10 : s.state = 10
  · rw [if_pos h10] at h
    exact stepHost_spec L s re c s' h10 hinv h
  rw [if_neg h10] at h
  by_cases h11 : s.state = 11
  · rw [if_pos h11] at h
    exact stepPort_spec L s re c s' h11 hinv h
  rw [if_neg h11] at h
  by_cases h12 : s.state = 12
  · rw [if_pos h12] at h
    exact stepFile_spec ctx L s re c s' h12 hinv h
  rw [if_neg h12] at h
  by_cases h13 : s.state = 13
  · rw [if_pos h13] at h
    exact stepFileSlash_spec ctx L s re c s' h13 hinv h
  rw [if_neg h13] at h
  by_cases h14 : s.state = 14
  · rw [if_pos h14] at h
    exact stepFileHost_spec L s re c s' h14 hinv h
  rw [if_neg h14] at h
  by_cases h15 : s.state = 15
  · rw [if_pos h15] at h
    exact stepPathStart_spec L s re c s' h15 hinv h
  rw [if_neg h15] at h
  by_cases h16 : s.state = 16
  · rw [if_pos h16] at h
    exact stepPath_spec ctx L s re c s' h16 hinv h
  rw [if_neg h16] at h
  by_cases h17 : s.state = 17
  · rw [if_pos h17] at h
    exact stepOpaquePath_spec L s re c s' h17 hinv h
  rw [if_neg h17] at h
  by_cases h18 : s.state = 18
  · rw [if_pos h18] at h
    exact stepQuery_spec ctx L s re c s' h18 hinv h
  rw [if_neg h18] at h
  by_cases h19 : s.state = 19
  · rw [if_pos h19] at h
    exact stepFragment_spec ctx L s re c s' h19 hinv h
  rw [if_neg h19] at h
  cases h
  unfold PInv at hinv
  unfold BodyOk
  refine ⟨by omega, ?_, ?_, Or.inl ⟨rfl, rfl, le_refl _⟩⟩
  · intro hmem
    simp only [List.mem_cons, List.not_mem_nil, or_false] at hmem
    omega
  · intro h9'
    exact absurd h9' h9

theorem measure_cross (L : Nat) (s s'' : PState)
    (hst : s.state < s''.state) (hle : s''.state ≤ 19)
    (hp : 0 ≤ s''.pointer) (hq : s.pointer ≤ (L : Int)) :
    pMeasure L s'' < pMeasure L s := by
  unfold pMeasure
  have h1 : (19 - s''.state) + 1 ≤ 19 - s.state := by omega
  have h2 : ((19 - s''.state) + 1) * (L + 4) ≤ (19 - s.state) * (L + 4) :=
    Nat.mul_le_mul_right _ h1
  rw [Nat.add_mul, one_mul] at h2
  have h3 : ((L : Int) + 1 - s''.pointer).toNat ≤ L + 1 := by omega
  split_ifs <;> omega

theorem measure_same (L : Nat) (s s'' : PState)
    (hst : s''.state = s.state)
    (hsk : s''.skip_authority_shortcut = s.skip_authority_shortcut)
    (hp : s.pointer < s''.pointer) (hpL : s.pointer ≤ (L : Int)) :
    pMeasure L s'' < pMeasure L s := by
  unfold pMeasure
  rw [hst, hsk]
  have : ((L : Int) + 1 - s''.pointer).toNat < ((L : Int) + 1 - s.pointer).toNat := by
    omega
  omega

theorem measure_flip (L : Nat) (s s'' : PState)
    (hst : s''.state = s.state)
    (hsk0 : s.skip_authority_shortcut = false)
    (hsk1 : s''.skip_authority_shortcut = true)
    (hp : s''.pointer = s.pointer) :
    pMeasure L s'' < pMeasure L s := by
  unfold pMeasure
  rw [hst, hp, hsk0, hsk1]
  simp

theorem step_spec (ctx : PCtx) (L : Nat) (hL : ctx.input.length = L) (s s'' : PState)
    (hinv : PInv L s) (h : step ctx s = .next s'') :
    PInv L s'' ∧ pMeasure L s'' < pMeasure L s := by
  unfold step at h
  simp only [] at h
  split at h
  · cases h
  · rename_i s' hb
    split_ifs at h with hlt
    cases h
    have hbody := stepBody_spec ctx L s _ _ s' hinv hb
    obtain ⟨hm1, hbuf, hb9', hdisj⟩ := hbody
    obtain ⟨hp0, hpL, _, _⟩ := hinv
    push_neg at hlt
    rw [hL] at hlt
    constructor
    · refine ⟨by simp; omega, by simp; omega, ?_, ?_⟩
      · intro hmem
        simp only [] at hmem
        exact hbuf (by simpa using hmem)
      · intro h9'
        simpa using hb9' (by simpa using h9')
    · rcases hdisj with ⟨he1, he2, he3⟩ | ⟨he1, he2⟩ | ⟨he1, he2, he3, he4⟩
      · exact measure_same L s _ (by simpa using he1) (by simpa using he2)
          (by simp; omega) hpL
      · exact measure_cross L s _ (by simpa using he1) (by simpa using he2)
          (by simp; omega) hpL
      · exact measure_flip L s _ (by simpa using he1) he2 (by simpa using he3)
          (by simp; omega)

theorem runSteps_total (ctx : PCtx) (L : Nat) (hL : ctx.input.length = L) :
    ∀ fuel s, PInv L s → pMeasure L s < fuel → runSteps ctx fuel s ≠ none := by
  intro fuel
  induction fuel with
  | zero => intro s _ hm; omega
  | succ fuel ih =>
    intro s hinv hm
    unfold runSteps
    rcases hs : step ctx s with s' | u | _
    · obtain ⟨hinv', hm'⟩ := step_spec ctx L hL s s' hinv hs
      exact ih s' hinv' (by omega)
    · simp
    · simp

/-- Claim C10: the parser's main loop terminates on every finite input.
`parse_url_with` runs the loop as
`runSteps ctx (parseFuel input.length) s0` on the preprocessed input; this
theorem shows the fuel is never exhausted — for every input, base URL,
resolved encoding and encode sets the loop reaches an exit (`break` at
`pointer >= input_length`, or a failure return) within `parseFuel` many
iterations, despite the `pointer -= 1` rewinds and the
`pointer -= len(buffer) + 1` rewind of the AUTHORITY state. -/
theorem c10_parser_terminates (input : Str) (base : Option URL) (enc : String)
    (us ps qs sqs fs : PercentEncodeSet) :
    runSteps ⟨preprocess_url input, base, us, ps, qs, sqs, fs⟩
      (parseFuel (preprocess_url input).length)
      ⟨URL.init, 0, [], false, false, false, 0, enc⟩ ≠ none := by
  exact runSteps_total (PCtx.mk (preprocess_url input) base us ps qs sqs fs)
    (preprocess_url input).length rfl (parseFuel (preprocess_url input).length)
    (PState.mk URL.init 0 [] false false false 0 enc)
    ⟨le_refl 0, by simp, fun _ => rfl, fun h9 => by simp at h9⟩
    (by unfold pMeasure parseFuel; simp; omega)

end W3
